import Mathlib

/-!
# Si7210 Hall-effect sensor driver

A shallow embedding of the driver in `src/src/si7210.cpp` / `src/src/si7210.h`.

* Bytes (`uint8_t`) are natural numbers, reduced `% 256` wherever the C++ code
  converts a wider value to `uint8_t`.
* `unsigned` arithmetic is arithmetic on natural numbers `% 2 ^ 32`; `int`
  values are integers, re-centred into the signed 32-bit window by `wrapInt32`.
* The mbed `I2C` object the driver talks to is not part of the driver: it is a
  parameter, given as a state with two answer functions.  Every transaction
  that the driver issues is appended, together with the answer, to a log.
* A C++ local that is declared without an initialiser and handed to
  `readRegister` as its output buffer is an explicit argument of the embedded
  function: it is the (indeterminate) content of the buffer before the call.
* Methods of the class are state transformers over the device object.
-/

namespace Si7210

/-! ## Register map and bit masks (`si7210.h`) -/

def REG_0XC0 : Nat := 0xC0
def REG_DSPSIGM : Nat := 0xC1
def REG_DSPSIGL : Nat := 0xC2
def REG_0XC3 : Nat := 0xC3
def REG_0XC4 : Nat := 0xC4
def REG_0XC5 : Nat := 0xC5
def REG_0XC6 : Nat := 0xC6
def REG_0XC7 : Nat := 0xC7
def REG_0XC8 : Nat := 0xC8
def REG_0XC9 : Nat := 0xC9
def REG_A0 : Nat := 0xCA
def REG_A1 : Nat := 0xCB
def REG_A2 : Nat := 0xCC
def REG_0XCD : Nat := 0xCD
def REG_A3 : Nat := 0xCE
def REG_A4 : Nat := 0xCF
def REG_A5 : Nat := 0xD0
def REG_OTP_ADDR : Nat := 0xE1
def REG_OTP_DATA : Nat := 0xE2
def REG_OTP_CTRL : Nat := 0xE3
def REG_0XE4 : Nat := 0xE4

def OTP_BUSY_MASK : Nat := 1
def OTP_READ_EN_MASK : Nat := 2
def DF_FIR_MASK : Nat := 0
def DF_IIR_MASK : Nat := 1

/-! ## Configuration types (`si7210.h`) -/

/-- Possible (bipolar) measurement range settings. -/
inductive si7210_range_t
  | RANGE_20mT
  | RANGE_200mT
  deriving DecidableEq, Repr

/-- Possible magnet types for temperature compensation. -/
inductive si7210_magnet_t
  | NONE
  | NEODYMIUM
  | CERAMIC
  deriving DecidableEq, Repr

/-- Conversion modes. -/
inductive si7210_mode_t
  | CONST_CONVERSION
  | ONEBURST
  deriving DecidableEq, Repr

/-- Digital filter kinds. -/
inductive si7210_filters_t
  | FIR
  | IIR
  | NONE
  deriving DecidableEq, Repr

/-- The `Filter` struct: a filter kind and an `int` burst size. -/
structure Filter where
  filterType : si7210_filters_t := si7210_filters_t.NONE
  burstsize : Int := 0
  deriving DecidableEq, Repr

/-! ## Machine arithmetic -/

/-- Conversion of an integer to `unsigned` (32 bits). -/
def toUInt32 (x : Int) : Nat := (x % 2 ^ 32).toNat

/-- The signed 32-bit value with the same bit pattern as `x` modulo `2 ^ 32`. -/
def wrapInt32 (x : Int) : Int := (x + 2 ^ 31) % 2 ^ 32 - 2 ^ 31

/-! ## The bus (mbed `I2C`), a parameter of the driver -/

/-- One completed transaction on the two-wire bus, with the answer it got.
`status` is the return value of the mbed call (`0` on ack, nonzero on nack);
for a read, `data` is the byte stored into the caller's one-byte buffer, or
`none` when the buffer was left untouched. -/
inductive Txn
  | write (address : Nat) (data : List Nat) (repeated : Bool) (status : Int)
  | read (address : Nat) (length : Nat) (repeated : Bool) (status : Int) (data : Option Nat)
  deriving DecidableEq, Repr

/-- The bus object: its current state, how it answers a write and a read, and
the log of the transactions issued so far. -/
structure I2C (σ : Type) where
  state : σ
  onWrite : σ → Nat → List Nat → Bool → σ × Int
  onRead : σ → Nat → Nat → Bool → σ × Int × Option Nat
  log : List Txn

/-- The call `i2c->write(address, data, length, repeated)` with `data` the
`length` bytes of the buffer: returns the status. -/
def I2C.write {σ : Type} (bus : I2C σ) (address : Nat) (data : List Nat) (repeated : Bool) :
    Int × I2C σ :=
  let r := bus.onWrite bus.state address data repeated
  (r.2, { bus with state := r.1, log := bus.log ++ [Txn.write address data repeated r.2] })

/-- The call `i2c->read(address, data, 1, repeated)` on a one-byte buffer whose
content before the call is `buf`: returns the status and the content of the
buffer after the call. -/
def I2C.read {σ : Type} (bus : I2C σ) (address : Nat) (buf : Nat) (repeated : Bool) :
    (Int × Nat) × I2C σ :=
  let r := bus.onRead bus.state address 1 repeated
  ((r.2.1, match r.2.2 with
           | some d => d % 256
           | none => buf),
   { bus with state := r.1, log := bus.log ++ [Txn.read address 1 repeated r.2.1 r.2.2] })

/-! ## The device object -/

/-- The private members of class `si7210`. -/
structure si7210 (σ : Type) where
  i2c : I2C σ
  devAddr7Bit : Nat
  devAddr8Bit : Nat
  range : si7210_range_t
  magnet : si7210_magnet_t
  mode : si7210_mode_t
  filter : Filter

variable {σ : Type}

/-! ## Register transport -/

/-- Method `si7210::readRegister(_reg, _returnedData)`: `buf` is the content of
`*_returnedData` before the call; the result is the returned flag and the
content of `*_returnedData` after the call. -/
def readRegister (_reg : Nat) (buf : Nat) : StateM (si7210 σ) (Bool × Nat) := fun dev =>
  let w := dev.i2c.write dev.devAddr8Bit [_reg % 256] true
  let r := w.2.read dev.devAddr8Bit buf false
  ((r.1.1 == 0, r.1.2), { dev with i2c := r.2 })

/-- Method `si7210::writeRegister(_reg, _data)`: one write transaction carrying the
register address and the data byte. -/
def writeRegister (_reg : Nat) (_data : Nat) : StateM (si7210 σ) Bool := fun dev =>
  let buffer : List Nat := [_reg % 256, _data % 256]
  let w := dev.i2c.write dev.devAddr8Bit buffer false
  (w.1 == 0, { dev with i2c := w.2 })

/-! ## Identity -/

/-- Method `si7210::getChipId()`; `temp0` is the indeterminate initial content of the
local `temp`. -/
def getChipId (temp0 : Nat) : StateM (si7210 σ) Nat := do
  let (_, temp) ← readRegister REG_0XC0 temp0
  return (temp >>> 4) % 256

/-- Method `si7210::getRevId()`; `temp0` is the indeterminate initial content of the
local `temp`.  The mask `~(0x1 << 4)` is an `int`: its 32-bit pattern is
`2 ^ 32 - 1 - (1 <<< 4)`. -/
def getRevId (temp0 : Nat) : StateM (si7210 σ) Nat := do
  let (_, temp) ← readRegister REG_0XC0 temp0
  return (temp &&& (2 ^ 32 - 1 - (0x1 <<< 4))) % 256

/-! ## Field strength -/

/-- Method `si7210::getFieldStrength()`; `dspsigm0` and `dspsigl0` are the
indeterminate initial contents of the locals `dspsigm` and `dspsigl`.  The
right-hand side of the assignment to `fieldStrength` is computed in `unsigned`
and converted to `int`. -/
def getFieldStrength (dspsigm0 dspsigl0 : Nat) : StateM (si7210 σ) Int := do
  let (_, dspsigm) ← readRegister REG_DSPSIGM dspsigm0
  let (_, dspsigl) ← readRegister REG_DSPSIGL dspsigl0
  let fieldStrength : Int :=
    wrapInt32 (toUInt32 ((((256 * (dspsigm &&& 0x7F)) % 2 ^ 32 + dspsigl) % 2 ^ 32 : Nat) - 16384))
  match (← get).range with
  | si7210_range_t.RANGE_20mT =>
      return wrapInt32 (wrapInt32 (Int.tdiv fieldStrength 4) + fieldStrength)
  | si7210_range_t.RANGE_200mT =>
      return wrapInt32 (wrapInt32 (fieldStrength * 12) + wrapInt32 (Int.tdiv fieldStrength 2))

/-! ## Calibration selector -/

/-- Method `si7210::setRange(r, mag)`; `temp` is the indeterminate initial content of
the local `temp`, which every `readRegister` call of the body overwrites when
the bus delivers a byte. -/
def setRange (r : si7210_range_t) (mag : si7210_magnet_t) (temp : Nat) :
    StateM (si7210 σ) Bool := do
  if r = si7210_range_t.RANGE_20mT ∧ mag = si7210_magnet_t.NONE then
    let _ ← writeRegister REG_OTP_ADDR 0x21
    let _ ← writeRegister REG_OTP_CTRL OTP_READ_EN_MASK
    let (_, temp) ← readRegister REG_OTP_DATA temp
    let _ ← writeRegister REG_A0 temp
    let _ ← writeRegister REG_OTP_ADDR 0x22
    let _ ← writeRegister REG_OTP_CTRL OTP_READ_EN_MASK
    let (_, temp) ← readRegister REG_OTP_DATA temp
    let _ ← writeRegister REG_A1 temp
    let _ ← writeRegister REG_OTP_ADDR 0x23
    let _ ← writeRegister REG_OTP_CTRL OTP_READ_EN_MASK
    let (_, temp) ← readRegister REG_OTP_DATA temp
    let _ ← writeRegister REG_A2 temp
    let _ ← writeRegister REG_OTP_ADDR 0x24
    let _ ← writeRegister REG_OTP_CTRL OTP_READ_EN_MASK
    let (_, temp) ← readRegister REG_OTP_DATA temp
    let _ ← writeRegister REG_A3 temp
    let _ ← writeRegister REG_OTP_ADDR 0x25
    let _ ← writeRegister REG_OTP_CTRL OTP_READ_EN_MASK
    let (_, temp) ← readRegister REG_OTP_DATA temp
    let _ ← writeRegister REG_A4 temp
    let _ ← writeRegister REG_OTP_ADDR 0x26
    let _ ← writeRegister REG_OTP_CTRL OTP_READ_EN_MASK
    let (_, temp) ← readRegister REG_OTP_DATA temp
    writeRegister REG_A5 temp
  else if r = si7210_range_t.RANGE_200mT ∧ mag = si7210_magnet_t.NONE then
    let _ ← writeRegister REG_OTP_ADDR 0x27
    let _ ← writeRegister REG_OTP_CTRL OTP_READ_EN_MASK
    let (_, temp) ← readRegister REG_OTP_DATA temp
    let _ ← writeRegister REG_A0 temp
    let _ ← writeRegister REG_OTP_ADDR 0x28
    let _ ← writeRegister REG_OTP_CTRL OTP_READ_EN_MASK
    let (_, temp) ← readRegister REG_OTP_DATA temp
    let _ ← writeRegister REG_A1 temp
    let _ ← writeRegister REG_OTP_ADDR 0x29
    let _ ← writeRegister REG_OTP_CTRL OTP_READ_EN_MASK
    let (_, temp) ← readRegister REG_OTP_DATA temp
    let _ ← writeRegister REG_A2 temp
    let _ ← writeRegister REG_OTP_ADDR 0x2A
    let _ ← writeRegister REG_OTP_CTRL OTP_READ_EN_MASK
    let (_, temp) ← readRegister REG_OTP_DATA temp
    let _ ← writeRegister REG_A3 temp
    let _ ← writeRegister REG_OTP_ADDR 0x2B
    let _ ← writeRegister REG_OTP_CTRL OTP_READ_EN_MASK
    let (_, temp) ← readRegister REG_OTP_DATA temp
    let _ ← writeRegister REG_A4 temp
    let _ ← writeRegister REG_OTP_ADDR 0x2C
    let _ ← writeRegister REG_OTP_CTRL OTP_READ_EN_MASK
    let (_, temp) ← readRegister REG_OTP_DATA temp
    writeRegister REG_A5 temp
  else if r = si7210_range_t.RANGE_20mT ∧ mag = si7210_magnet_t.NEODYMIUM then
    let _ ← writeRegister REG_OTP_ADDR 0x2D
    let _ ← writeRegister REG_OTP_CTRL OTP_READ_EN_MASK
    let (_, temp) ← readRegister REG_OTP_DATA temp
    let _ ← writeRegister REG_A0 temp
    let _ ← writeRegister REG_OTP_ADDR 0x2E
    let _ ← writeRegister REG_OTP_CTRL OTP_READ_EN_MASK
    let (_, temp) ← readRegister REG_OTP_DATA temp
    let _ ← writeRegister REG_A1 temp
    let _ ← writeRegister REG_OTP_ADDR 0x2F
    let _ ← writeRegister REG_OTP_CTRL OTP_READ_EN_MASK
    let (_, temp) ← readRegister REG_OTP_DATA temp
    let _ ← writeRegister REG_A2 temp
    let _ ← writeRegister REG_OTP_ADDR 0x30
    let _ ← writeRegister REG_OTP_CTRL OTP_READ_EN_MASK
    let (_, temp) ← readRegister REG_OTP_DATA temp
    let _ ← writeRegister REG_A3 temp
    let _ ← writeRegister REG_OTP_ADDR 0x31
    let _ ← writeRegister REG_OTP_CTRL OTP_READ_EN_MASK
    let (_, temp) ← readRegister REG_OTP_DATA temp
    let _ ← writeRegister REG_A4 temp
    let _ ← writeRegister REG_OTP_ADDR 0x32
    let _ ← writeRegister REG_OTP_CTRL OTP_READ_EN_MASK
    let (_, temp) ← readRegister REG_OTP_DATA temp
    writeRegister REG_A5 temp
  else if r = si7210_range_t.RANGE_200mT ∧ mag = si7210_magnet_t.NEODYMIUM then
    let _ ← writeRegister REG_OTP_ADDR 0x33
    let _ ← writeRegister REG_OTP_CTRL OTP_READ_EN_MASK
    let (_, temp) ← readRegister REG_OTP_DATA temp
    let _ ← writeRegister REG_A0 temp
    let _ ← writeRegister REG_OTP_ADDR 0x34
    let _ ← writeRegister REG_OTP_CTRL OTP_READ_EN_MASK
    let (_, temp) ← readRegister REG_OTP_DATA temp
    let _ ← writeRegister REG_A1 temp
    let _ ← writeRegister REG_OTP_ADDR 0x35
    let _ ← writeRegister REG_OTP_CTRL OTP_READ_EN_MASK
    let (_, temp) ← readRegister REG_OTP_DATA temp
    let _ ← writeRegister REG_A2 temp
    let _ ← writeRegister REG_OTP_ADDR 0x36
    let _ ← writeRegister REG_OTP_CTRL OTP_READ_EN_MASK
    let (_, temp) ← readRegister REG_OTP_DATA temp
    let _ ← writeRegister REG_A3 temp
    let _ ← writeRegister REG_OTP_ADDR 0x37
    let _ ← writeRegister REG_OTP_CTRL OTP_READ_EN_MASK
    let (_, temp) ← readRegister REG_OTP_DATA temp
    let _ ← writeRegister REG_A4 temp
    let _ ← writeRegister REG_OTP_ADDR 0x38
    let _ ← writeRegister REG_OTP_CTRL OTP_READ_EN_MASK
    let (_, temp) ← readRegister REG_OTP_DATA temp
    writeRegister REG_A5 temp
  else if r = si7210_range_t.RANGE_20mT ∧ mag = si7210_magnet_t.CERAMIC then
    let _ ← writeRegister REG_OTP_ADDR 0x39
    let _ ← writeRegister REG_OTP_CTRL OTP_READ_EN_MASK
    let (_, temp) ← readRegister REG_OTP_DATA temp
    let _ ← writeRegister REG_A0 temp
    let _ ← writeRegister REG_OTP_ADDR 0x3A
    let _ ← writeRegister REG_OTP_CTRL OTP_READ_EN_MASK
    let (_, temp) ← readRegister REG_OTP_DATA temp
    let _ ← writeRegister REG_A1 temp
    let _ ← writeRegister REG_OTP_ADDR 0x3B
    let _ ← writeRegister REG_OTP_CTRL OTP_READ_EN_MASK
    let (_, temp) ← readRegister REG_OTP_DATA temp
    let _ ← writeRegister REG_A2 temp
    let _ ← writeRegister REG_OTP_ADDR 0x3C
    let _ ← writeRegister REG_OTP_CTRL OTP_READ_EN_MASK
    let (_, temp) ← readRegister REG_OTP_DATA temp
    let _ ← writeRegister REG_A3 temp
    let _ ← writeRegister REG_OTP_ADDR 0x3D
    let _ ← writeRegister REG_OTP_CTRL OTP_READ_EN_MASK
    let (_, temp) ← readRegister REG_OTP_DATA temp
    let _ ← writeRegister REG_A4 temp
    let _ ← writeRegister REG_OTP_ADDR 0x3E
    let _ ← writeRegister REG_OTP_CTRL OTP_READ_EN_MASK
    let (_, temp) ← readRegister REG_OTP_DATA temp
    writeRegister REG_A5 temp
  else if r = si7210_range_t.RANGE_200mT ∧ mag = si7210_magnet_t.CERAMIC then
    let _ ← writeRegister REG_OTP_ADDR 0x3F
    let _ ← writeRegister REG_OTP_CTRL OTP_READ_EN_MASK
    let (_, temp) ← readRegister REG_OTP_DATA temp
    let _ ← writeRegister REG_A0 temp
    let _ ← writeRegister REG_OTP_ADDR 0x40
    let _ ← writeRegister REG_OTP_CTRL OTP_READ_EN_MASK
    let (_, temp) ← readRegister REG_OTP_DATA temp
    let _ ← writeRegister REG_A1 temp
    let _ ← writeRegister REG_OTP_ADDR 0x41
    let _ ← writeRegister REG_OTP_CTRL OTP_READ_EN_MASK
    let (_, temp) ← readRegister REG_OTP_DATA temp
    let _ ← writeRegister REG_A2 temp
    let _ ← writeRegister REG_OTP_ADDR 0x42
    let _ ← writeRegister REG_OTP_CTRL OTP_READ_EN_MASK
    let (_, temp) ← readRegister REG_OTP_DATA temp
    let _ ← writeRegister REG_A3 temp
    let _ ← writeRegister REG_OTP_ADDR 0x43
    let _ ← writeRegister REG_OTP_CTRL OTP_READ_EN_MASK
    let (_, temp) ← readRegister REG_OTP_DATA temp
    let _ ← writeRegister REG_A4 temp
    let _ ← writeRegister REG_OTP_ADDR 0x44
    let _ ← writeRegister REG_OTP_CTRL OTP_READ_EN_MASK
    let (_, temp) ← readRegister REG_OTP_DATA temp
    writeRegister REG_A5 temp
  else
    return false

/-! ## Filter configurator -/

/-- Method `si7210::setFilter(f)`.  `f.burstsize` is an `int`: the shift is a signed
32-bit shift, and the bitwise or with the `uint8_t` local `temp` is taken on
the 32-bit patterns and converted back to `uint8_t`. -/
def setFilter (f : Filter) : StateM (si7210 σ) Bool := do
  let temp : Nat := 0x0
  match f.filterType with
  | si7210_filters_t.NONE =>
      writeRegister REG_0XCD temp
  | si7210_filters_t.FIR =>
      if f.burstsize > 12 then
        let temp : Nat := 0x0
        let _ ← writeRegister REG_0XCD temp
        return false
      else
        let temp : Nat := (temp ||| DF_FIR_MASK) % 256
        let f : Filter := { f with burstsize := wrapInt32 (f.burstsize * 2) }
        let temp : Nat := (temp ||| toUInt32 f.burstsize) % 256
        writeRegister REG_0XCD temp
  | si7210_filters_t.IIR =>
      if f.burstsize > 12 then
        let temp : Nat := 0x0
        let _ ← writeRegister REG_0XCD temp
        return false
      else
        let temp : Nat := (temp ||| DF_IIR_MASK) % 256
        let f : Filter := { f with burstsize := wrapInt32 (f.burstsize * 2) }
        let temp : Nat := (temp ||| toUInt32 f.burstsize) % 256
        writeRegister REG_0XCD temp

/-! ## Health check, sleep and wake-up -/

/-- Method `si7210::checkGood()`; `temp0` is the indeterminate initial content of the
local `temp`. -/
def checkGood (temp0 : Nat) : StateM (si7210 σ) Bool := do
  let (_, temp) ← readRegister REG_0XC0 temp0
  if temp = 0x14 then
    return true
  else
    return false

/-- Method `si7210::sleep()`; `temp0` is the indeterminate initial content of the local
`temp`, which both `readRegister` calls use as their buffer. -/
def sleep (temp0 : Nat) : StateM (si7210 σ) Bool := do
  let (_, temp) ← readRegister REG_0XC9 temp0
  let temp : Nat := (temp &&& 0xFE) % 256
  let _ ← writeRegister REG_0XC9 temp
  let (_, temp) ← readRegister REG_0XC4 temp
  let temp : Nat := ((temp &&& 0xF8) ||| 0x01) % 256
  writeRegister REG_0XC4 temp

/-- Method `si7210::wakeup()`.  The buffer argument of the write is `(const char *)_reg`,
the value `0xC0` of the local `_reg` converted to a pointer, so the byte that is sent is the
content of memory address `0xC0`, an argument `mem` of the embedded function.  The method
returns at its first statement; the call of `init()` that follows the `return` is never
executed. -/
def wakeup (mem : Nat) : StateM (si7210 σ) Bool := fun dev =>
  let w := dev.i2c.write dev.devAddr8Bit [mem % 256] false
  (w.1 == 0, { dev with i2c := w.2 })

/-! ## Mode control -/

/-- Method `si7210::setMode(m)`; `temp0` is the indeterminate initial content of the local
`temp`.  The `switch` is on the member `mode`; the argument `m` is not used by the body. -/
def setMode (m : si7210_mode_t) (temp0 : Nat) : StateM (si7210 σ) Bool := do
  let _ := m
  match (← get).mode with
  | si7210_mode_t.CONST_CONVERSION =>
      let (_, temp) ← readRegister REG_0XC9 temp0
      let temp : Nat := (temp ||| (1 <<< 1)) % 256
      let temp : Nat := (temp &&& 0xFE) % 256
      let _ ← writeRegister REG_0XC9 temp
      let (_, _) ← readRegister REG_0XC8 temp
      let temp : Nat := 0x0
      let _ ← writeRegister REG_0XC8 temp
      let (_, temp) ← readRegister REG_0XC4 temp
      let temp : Nat := (temp &&& 0xFC) % 256
      let _ ← writeRegister REG_0XC4 temp
      return true
  | si7210_mode_t.ONEBURST =>
      return false

/-! ## Construction -/

/-- Method `si7210::init()`; `tMode` and `tRange` are the indeterminate initial contents of
the locals `temp` of `setMode` and `setRange`. -/
def init (tMode tRange : Nat) : StateM (si7210 σ) Unit := do
  let _ ← setMode (← get).mode tMode
  let _ ← setRange (← get).range (← get).magnet tRange
  let _ ← setFilter (← get).filter
  return ()

/-- The constructor `si7210::si7210(i2cBus, addr, r, mag, m, f)`: it stores its arguments,
the 8-bit address being `addr << 1` converted to `uint8_t`, and calls `init()`.  (Inside
its own body the name of the class would denote the function, hence the name `new`.) -/
def si7210.new (i2cBus : I2C σ) (addr : Nat) (r : si7210_range_t) (mag : si7210_magnet_t)
    (m : si7210_mode_t) (f : Filter) (tMode tRange : Nat) : si7210 σ :=
  let this : si7210 σ :=
    { i2c := i2cBus
      devAddr7Bit := addr % 256
      devAddr8Bit := ((addr % 256) <<< 1) % 256
      range := r
      magnet := mag
      mode := m
      filter := f }
  (init tMode tRange this).2

/-! ## Diagnostics -/

/-- The struct `si7210_register_t`: an `int` address and a byte of data. -/
structure si7210_register_t where
  addr : Int
  data : Nat
  deriving DecidableEq, Repr

/-- Conversion of an integer to `uint8_t`. -/
def toUInt8 (x : Int) : Nat := (x % 256).toNat

/-- An element access `registers[index]` made on a vector of `size` elements with `index`
not below `size`.  This is undefined behaviour in C++; the compiled code reads and writes
the memory past the end of the vector and goes on. -/
structure OutOfRange where
  index : Nat
  size : Nat
  deriving DecidableEq, Repr

/-- What a run of `i2cMemDump` produces: the vector `registers` and, as a record kept by the
embedding, the out-of-range element accesses made on the way. -/
structure Dump where
  registers : List si7210_register_t
  outOfRange : List OutOfRange
  deriving DecidableEq, Repr

/-- The statement `registers[i].addr = a;`: one element access.  Past the end the store
does not reach the vector. -/
def setAddr (d : Dump) (i : Nat) (a : Int) : Dump :=
  match d.registers[i]? with
  | some reg => { d with registers := d.registers.set i { reg with addr := a } }
  | none => { d with outOfRange := d.outOfRange ++ [{ index := i, size := d.registers.length }] }

/-- The read loop `for (int i = 0; i <= registers.size(); i++)` of `i2cMemDump`, from the
value `i` of the loop variable on.  The body `readRegister(registers[i].addr,
&registers[i].data)` makes two element accesses.  When `i` is past the end, both are
recorded, the register address is the indeterminate `int` found there (`pastAddr`), the
buffer is the byte found there (`pastData`), and the byte read is stored outside the
vector, which is left as it is.  `fuel` bounds the number of iterations; the result is `none`
when it runs out. -/
def i2cMemDump_loop (fuel : Nat) (i : Nat) (d : Dump) (pastAddr : Int) (pastData : Nat) :
    StateM (si7210 σ) (Option Dump) :=
  match fuel with
  | 0 => pure none
  | fuel + 1 =>
      if i ≤ d.registers.length then
        match d.registers[i]? with
        | some reg => do
            let (_, data) ← readRegister (toUInt8 reg.addr) reg.data
            i2cMemDump_loop fuel (i + 1)
              { d with registers := d.registers.set i { reg with data := data } }
              pastAddr pastData
        | none => do
            let (_, _) ← readRegister (toUInt8 pastAddr) pastData
            i2cMemDump_loop fuel (i + 1)
              { d with outOfRange := d.outOfRange
                  ++ [{ index := i, size := d.registers.length },
                      { index := i, size := d.registers.length }] }
              pastAddr pastData
      else
        pure (some d)

/-- Method `si7210::i2cMemDump()`; `pastAddr` and `pastData` are the indeterminate contents
of the memory past the end of the vector, where `registers[21]` would be.  The vector is
filled with 21 value-initialised elements, the 21 addresses are assigned, the read loop runs
with a budget of `size + 2` iterations (one more than the loop condition allows), and the
vector is returned. -/
def i2cMemDump (pastAddr : Int) (pastData : Nat) : StateM (si7210 σ) (Option Dump) := do
  let registers : List si7210_register_t :=
    (List.range 21).foldl (fun regs _ => regs ++ [{ addr := 0, data := 0 }]) []
  let d : Dump := { registers := registers, outOfRange := [] }
  let d := setAddr d 0 0xC0
  let d := setAddr d 1 0xC1
  let d := setAddr d 2 0xC2
  let d := setAddr d 3 0xC3
  let d := setAddr d 4 0xC4
  let d := setAddr d 5 0xC5
  let d := setAddr d 6 0xC6
  let d := setAddr d 7 0xC7
  let d := setAddr d 8 0xC8
  let d := setAddr d 9 0xC9
  let d := setAddr d 10 0xCA
  let d := setAddr d 11 0xCB
  let d := setAddr d 12 0xCC
  let d := setAddr d 13 0xCD
  let d := setAddr d 14 0xCE
  let d := setAddr d 15 0xCF
  let d := setAddr d 16 0xD0
  let d := setAddr d 17 0xE1
  let d := setAddr d 18 0xE2
  let d := setAddr d 19 0xE3
  let d := setAddr d 20 0xE4
  i2cMemDump_loop (d.registers.length + 2) 0 d pastAddr pastData

/-! ## Concrete buses -/

/-- A scripted bus: its state is the number of transactions answered so far,
and the `n`-th transaction is answered with status `acks n` and, when it is a
read, with data `bytes n`. -/
def scriptBus (acks : Nat → Int) (bytes : Nat → Option Nat) : I2C Nat where
  state := 0
  onWrite := fun n _ _ _ => (n + 1, acks n)
  onRead := fun n _ _ _ => (n + 1, acks n, bytes n)
  log := []

/-- A device object on a scripted bus, with the fields the constructor stores
for the 7-bit address `0x31` used by `main.cpp`. -/
def scriptDev (acks : Nat → Int) (bytes : Nat → Option Nat) (r : si7210_range_t)
    (mag : si7210_magnet_t) : si7210 Nat where
  i2c := scriptBus acks bytes
  devAddr7Bit := 0x31
  devAddr8Bit := 0x62
  range := r
  magnet := mag
  mode := si7210_mode_t.CONST_CONVERSION
  filter := { filterType := si7210_filters_t.FIR, burstsize := 12 }

/-! ## Specification-side vocabulary: transactions of a calibration cycle, frames, encodings -/

/-- The answers of the bus during one calibration cycle: the statuses of the five
transactions and the data of the read. -/
structure CycleAnswers where
  stAddr : Int
  stCtrl : Int
  stSel : Int
  stRead : Int
  data : Option Nat
  stDest : Int

/-- Content of a one-byte buffer after a read that delivered `data`. -/
def bufferAfter (buf : Nat) (data : Option Nat) : Nat :=
  match data with
  | some d => d % 256
  | none => buf

/-- The bus transactions of one calibration cycle on the device at bus address `a`. -/
def cycleTxns (a src dst buf : Nat) (ans : CycleAnswers) : List Txn :=
  [Txn.write a [0xE1, src] false ans.stAddr,
   Txn.write a [0xE3, 0x02] false ans.stCtrl,
   Txn.write a [0xE2] true ans.stSel,
   Txn.read a 1 false ans.stRead ans.data,
   Txn.write a [dst, bufferAfter buf ans.data % 256] false ans.stDest]

/-- The bus transactions of the six calibration cycles of `setRange`, for first source
address `base`, initial buffer content `buf` and the answers of the bus in each cycle. -/
def calibrationTxns (a base buf : Nat) (a0 a1 a2 a3 a4 a5 : CycleAnswers) : List Txn :=
  let b1 := bufferAfter buf a0.data
  let b2 := bufferAfter b1 a1.data
  let b3 := bufferAfter b2 a2.data
  let b4 := bufferAfter b3 a3.data
  let b5 := bufferAfter b4 a4.data
  cycleTxns a base 0xCA buf a0 ++ cycleTxns a (base + 1) 0xCB b1 a1
    ++ cycleTxns a (base + 2) 0xCC b2 a2 ++ cycleTxns a (base + 3) 0xCE b3 a3
    ++ cycleTxns a (base + 4) 0xCF b4 a4 ++ cycleTxns a (base + 5) 0xD0 b5 a5

/-- The statement group that `setRange` repeats six times in each branch (a proof device:
`setRange_eq_cycles` shows that every branch of `setRange` is six of these in a row). -/
def otpCycle (src dst temp : Nat) : StateM (si7210 σ) (Bool × Nat) := do
  let _ ← writeRegister REG_OTP_ADDR src
  let _ ← writeRegister REG_OTP_CTRL OTP_READ_EN_MASK
  let (_, temp) ← readRegister REG_OTP_DATA temp
  let ok ← writeRegister dst temp
  return (ok, temp)

/-- First OTP source address of each (range, magnet) pair, as the specification lists
them; `setRange_eq_cycles` compares the six branches of `setRange` with this table. -/
def otpBase : si7210_range_t → si7210_magnet_t → Nat
  | si7210_range_t.RANGE_20mT, si7210_magnet_t.NONE => 0x21
  | si7210_range_t.RANGE_200mT, si7210_magnet_t.NONE => 0x27
  | si7210_range_t.RANGE_20mT, si7210_magnet_t.NEODYMIUM => 0x2D
  | si7210_range_t.RANGE_200mT, si7210_magnet_t.NEODYMIUM => 0x33
  | si7210_range_t.RANGE_20mT, si7210_magnet_t.CERAMIC => 0x39
  | si7210_range_t.RANGE_200mT, si7210_magnet_t.CERAMIC => 0x3F

/-- The bus transactions of one calibration cycle on an acknowledging bus: the source
address `src` is written to the OTP address register `0xE1`, the read-enable value `0x02`
to the OTP control register `0xE3`, the byte `d` is read from the OTP data register `0xE2`
(address phase with repeated start, then the data phase), and `d` is written to the
destination register `dst`. -/
def ackedCycle (a src dst d : Nat) : List Txn :=
  [Txn.write a [0xE1, src] false 0,
   Txn.write a [0xE3, 0x02] false 0,
   Txn.write a [0xE2] true 0,
   Txn.read a 1 false 0 (some d),
   Txn.write a [dst, d] false 0]

/-- The bus acknowledges every transaction, and every read delivers a byte. -/
def Acknowledges (bus : I2C σ) : Prop :=
  (∀ s a d r, (bus.onWrite s a d r).2 = 0) ∧
  (∀ s a n r, (bus.onRead s a n r).2.1 = 0 ∧ ∃ b, b < 256 ∧ (bus.onRead s a n r).2.2 = some b)

/-- Everything of the device object but the state and the log of its bus is unchanged. -/
def Frame (dev dev' : si7210 σ) : Prop :=
  dev'.devAddr7Bit = dev.devAddr7Bit ∧ dev'.devAddr8Bit = dev.devAddr8Bit ∧
  dev'.range = dev.range ∧ dev'.magnet = dev.magnet ∧ dev'.mode = dev.mode ∧
  dev'.filter = dev.filter ∧ dev'.i2c.onWrite = dev.i2c.onWrite ∧
  dev'.i2c.onRead = dev.i2c.onRead

/-- The status `st` is one that the bus can give to a write. -/
def WriteAnswer (bus : I2C σ) (st : Int) : Prop :=
  ∃ s a d r, st = (bus.onWrite s a d r).2

/-- The status `st` and data `data` are an answer that the bus can give to a read. -/
def ReadAnswer (bus : I2C σ) (st : Int) (data : Option Nat) : Prop :=
  ∃ s a n r, (st, data) = (bus.onRead s a n r).2

/-- The answers of a cycle are answers that the bus can give. -/
def FromBus (bus : I2C σ) (ans : CycleAnswers) : Prop :=
  WriteAnswer bus ans.stAddr ∧ WriteAnswer bus ans.stCtrl ∧ WriteAnswer bus ans.stSel ∧
  ReadAnswer bus ans.stRead ans.data ∧ WriteAnswer bus ans.stDest

/-- The transactions that a method call issued: the part of the log after the call that is
past the log before the call. -/
def issued (before after : si7210 σ) : List Txn :=
  after.i2c.log.drop before.i2c.log.length

/-- The OTP source addresses in a list of transactions: the data bytes of the writes to the
OTP address register. -/
def otpSources : List Txn → List Nat
  | [] => []
  | Txn.write _ [reg, d] _ _ :: rest =>
      if reg = REG_OTP_ADDR then d :: otpSources rest else otpSources rest
  | _ :: rest => otpSources rest

/-- The byte that `setFilter` computes for an accepted FIR or IIR filter with type bit
`mask`. -/
def filterByte (mask : Nat) (burstsize : Int) : Nat :=
  ((0x0 ||| mask) % 256 ||| toUInt32 (wrapInt32 (burstsize * 2))) % 256

/-- The filter-register encoding as the specification states it: `0` for no filter, the
burst size shifted left by one bit, or-ed with the type bit `0` for FIR and `1` for IIR. -/
def enc (f : Filter) : Nat :=
  match f.filterType with
  | si7210_filters_t.NONE => 0
  | si7210_filters_t.FIR => (f.burstsize.toNat <<< 1) ||| 0
  | si7210_filters_t.IIR => (f.burstsize.toNat <<< 1) ||| 1

/-! ## Specification-side vocabulary: read-modify-write steps, register maps, the dump -/

/-- The answers of the bus during one read-modify-write step on a register: the statuses of
the address phase, of the data phase and of the write back, and the data of the read. -/
structure RegAnswers where
  stSel : Int
  stRead : Int
  data : Option Nat
  stWrite : Int

/-- The bus transactions of one read-modify-write step on register `reg` of the device at
bus address `a`: the register is read (address phase with repeated start, then the data
phase) and `value` is written to it. -/
def rmwTxns (a reg : Nat) (ans : RegAnswers) (value : Nat) : List Txn :=
  [Txn.write a [reg] true ans.stSel,
   Txn.read a 1 false ans.stRead ans.data,
   Txn.write a [reg, value] false ans.stWrite]

/-- A read of register `reg` into a buffer holding `buf`, followed by the write of `f`
applied to the buffer (a proof device: `setMode` and `sleep` are sequences of these). -/
def rmw (reg buf : Nat) (f : Nat → Nat) : StateM (si7210 σ) (Bool × Nat) := do
  let (_, temp) ← readRegister reg buf
  let temp : Nat := f temp
  let ok ← writeRegister reg temp
  return (ok, temp)

/-- The state of a register-map device: the content of every register and the register
selected by the last address phase. -/
structure RegFile where
  regs : Nat → Nat
  ptr : Nat

/-- How a register-map device answers a write: one byte selects a register, two bytes store
the second byte in the register named by the first; every write is acknowledged. -/
def regWrite (s : RegFile) (_address : Nat) (data : List Nat) (_repeated : Bool) :
    RegFile × Int :=
  match data with
  | [reg] => ({ s with ptr := reg }, 0)
  | [reg, value] => ({ regs := fun r => if r = reg then value else s.regs r, ptr := reg }, 0)
  | _ => (s, 0)

/-- How a register-map device answers a read: it delivers the stored byte of the selected
register and acknowledges. -/
def regRead (s : RegFile) (_address : Nat) (_length : Nat) (_repeated : Bool) :
    RegFile × Int × Option Nat :=
  (s, 0, some (s.regs s.ptr))

/-- A register-map bus with initial register contents `regs`. -/
def regBus (regs : Nat → Nat) : I2C RegFile where
  state := { regs := regs, ptr := 0 }
  onWrite := regWrite
  onRead := regRead
  log := []

/-- The bus of the device is a register map: a write stores the byte, a read returns the
stored byte. -/
def RegBacked (dev : si7210 RegFile) : Prop :=
  dev.i2c.onWrite = regWrite ∧ dev.i2c.onRead = regRead

/-- A device object on a register-map bus with initial register contents `regs` and stored
mode `m`. -/
def regDev (regs : Nat → Nat) (m : si7210_mode_t) : si7210 RegFile where
  i2c := regBus regs
  devAddr7Bit := 0x31
  devAddr8Bit := 0x62
  range := si7210_range_t.RANGE_20mT
  magnet := si7210_magnet_t.NONE
  mode := m
  filter := { filterType := si7210_filters_t.NONE, burstsize := 0 }

/-- The 21 register addresses of the memory dump, in order: `0xC0` to `0xD0`, then `0xE1`
to `0xE4`. -/
def dumpAddrs : List Int :=
  [0xC0, 0xC1, 0xC2, 0xC3, 0xC4, 0xC5, 0xC6, 0xC7, 0xC8, 0xC9, 0xCA, 0xCB, 0xCC, 0xCD, 0xCE,
   0xCF, 0xD0, 0xE1, 0xE2, 0xE3, 0xE4]

/-! ## Specification-side vocabulary: measurements, accepted filters, bus addresses -/

/-- The centred measurement as the specification writes it:
`Raw = 256 * (MSB & 0x7F) + LSB - 16384`, a signed integer. -/
def rawSignal (MSB LSB : Nat) : Int :=
  256 * ((MSB &&& 0x7F : Nat) : Int) + (LSB : Int) - 16384

/-- The 15-bit measurement held by the two signal registers: `256 * (MSB & 0x7F) + LSB`. -/
def measured15 (MSB LSB : Nat) : Nat :=
  256 * (MSB &&& 0x7F) + LSB

/-- The value lies in the range of a signed 32-bit integer. -/
def FitsInt32 (x : Int) : Prop :=
  -2 ^ 31 ≤ x ∧ x < 2 ^ 31

/-- The bus address that a transaction was issued to. -/
def Txn.address : Txn → Nat
  | Txn.write address _ _ _ => address
  | Txn.read address _ _ _ _ => address

/-- The device `dev'` is `dev` after some transactions, every one of them issued to the
8-bit address stored in `dev`, with the rest of the device object unchanged. -/
def Extends (dev dev' : si7210 σ) : Prop :=
  Frame dev dev' ∧
    ∃ l : List Txn, dev'.i2c.log = dev.i2c.log ++ l ∧ ∀ t ∈ l, t.address = dev.devAddr8Bit

/-- The filter is one that `setFilter` accepts as FIR or IIR: the burst size is in `0..12`. -/
def Accepted (f : Filter) : Prop :=
  (f.filterType = si7210_filters_t.FIR ∨ f.filterType = si7210_filters_t.IIR)
    ∧ 0 ≤ f.burstsize ∧ f.burstsize ≤ 12

/-- The byte that `setFilter` hands to `writeRegister`, branch by branch (a proof device:
`setFilter_issued` shows that this is the byte written to the filter register). -/
def filterRegisterByte (f : Filter) : Nat :=
  match f.filterType with
  | si7210_filters_t.NONE => 0x0
  | si7210_filters_t.FIR => if f.burstsize > 12 then 0x0 else filterByte DF_FIR_MASK f.burstsize
  | si7210_filters_t.IIR => if f.burstsize > 12 then 0x0 else filterByte DF_IIR_MASK f.burstsize

/-! ## Specification-side vocabulary: the reads of the memory dump -/

/-- The answers of the bus during one register read: the statuses of the address phase and
of the data phase, and the data of the read. -/
structure ReadAnswers where
  stSel : Int
  stRead : Int
  data : Option Nat

/-- The bus transactions of one read of register `reg` on the device at bus address `a`:
the address phase with repeated start, then the data phase. -/
def readTxns (a reg : Nat) (ans : ReadAnswers) : List Txn :=
  [Txn.write a [reg] true ans.stSel, Txn.read a 1 false ans.stRead ans.data]

/-- The bus transactions of reading the registers of `regs` one after the other, entry `k`
being read at its own address with the answers `answers[k]`. -/
def dumpTxns (a : Nat) : List si7210_register_t → List ReadAnswers → List Txn
  | reg :: regs, ans :: answers => readTxns a (toUInt8 reg.addr) ans ++ dumpTxns a regs answers
  | _, _ => []

/-- The entries of `regs` after each has been read: entry `k` keeps its address and its data
is the content of its buffer after the read answered by `answers[k]`. -/
def dumpFill : List si7210_register_t → List ReadAnswers → List si7210_register_t
  | reg :: regs, ans :: answers =>
      { reg with data := bufferAfter reg.data ans.data } :: dumpFill regs answers
  | _, _ => []

/-! ## Running state transformers -/

theorem bind_run {S α β : Type} (x : StateM S α) (f : α → StateM S β) (s : S) :
    (x >>= f) s = f (x s).1 (x s).2 := rfl

theorem pure_run {S α : Type} (a : α) (s : S) : (pure a : StateM S α) s = (a, s) := rfl

/-! ## Field strength: conversion from the signal registers -/

theorem readRegister_range (reg buf : Nat) (dev : si7210 σ) :
    (readRegister reg buf dev).2.range = dev.range := rfl

theorem tdiv_pos_cases (a : Int) :
    (0 ≤ a ∧ Int.tdiv a 4 = a / 4) ∨ (a < 0 ∧ Int.tdiv a 4 = -((-a) / 4)) := by
  rcases le_or_lt 0 a with h | h
  · exact Or.inl ⟨h, Int.tdiv_eq_ediv h (by norm_num)⟩
  · refine Or.inr ⟨h, ?_⟩
    have : Int.tdiv (-(-a)) 4 = -(Int.tdiv (-a) 4) := Int.neg_tdiv (-a) 4
    rw [neg_neg] at this
    rw [this, Int.tdiv_eq_ediv (by omega) (by norm_num)]

theorem rawValue (m l : Nat) (hl : l < 256) :
    wrapInt32 (toUInt32 ((((256 * (m &&& 0x7F)) % 2 ^ 32 + l) % 2 ^ 32 : Nat) - 16384))
      = 256 * ((m &&& 0x7F : Nat) : Int) + l - 16384 := by
  have hx : m &&& 0x7F ≤ 0x7F := Nat.and_le_right
  generalize m &&& 0x7F = x at hx ⊢
  unfold wrapInt32 toUInt32
  omega

theorem getFieldStrength_eq (dev dev1 dev2 : si7210 σ) (m0 l0 MSB LSB : Nat) (ok1 ok2 : Bool)
    (hm : readRegister REG_DSPSIGM m0 dev = ((ok1, MSB), dev1))
    (hl : readRegister REG_DSPSIGL l0 dev1 = ((ok2, LSB), dev2)) :
    getFieldStrength m0 l0 dev =
      ((let fieldStrength : Int :=
          wrapInt32 (toUInt32 ((((256 * (MSB &&& 0x7F)) % 2 ^ 32 + LSB) % 2 ^ 32 : Nat) - 16384))
        match dev.range with
        | si7210_range_t.RANGE_20mT =>
            wrapInt32 (wrapInt32 (Int.tdiv fieldStrength 4) + fieldStrength)
        | si7210_range_t.RANGE_200mT =>
            wrapInt32 (wrapInt32 (fieldStrength * 12) + wrapInt32 (Int.tdiv fieldStrength 2))), dev2) := by
  have h1 : dev1.range = dev.range := by rw [← readRegister_range REG_DSPSIGM m0 dev, hm]
  have h2 : dev2.range = dev1.range := by rw [← readRegister_range REG_DSPSIGL l0 dev1, hl]
  simp only [getFieldStrength, bind, StateT.bind, hm, hl, get, getThe, MonadStateOf.get, StateT.get, pure, h2, h1]
  cases dev.range <;> rfl

theorem tdiv_two_cases (a : Int) :
    (0 ≤ a ∧ Int.tdiv a 2 = a / 2) ∨ (a < 0 ∧ Int.tdiv a 2 = -((-a) / 2)) := by
  rcases le_or_lt 0 a with h | h
  · exact Or.inl ⟨h, Int.tdiv_eq_ediv h (by norm_num)⟩
  · refine Or.inr ⟨h, ?_⟩
    have : Int.tdiv (-(-a)) 2 = -(Int.tdiv (-a) 2) := Int.neg_tdiv (-a) 2
    rw [neg_neg] at this
    rw [this, Int.tdiv_eq_ediv (by omega) (by norm_num)]

/-- C1: on a device whose range is 20 mT, when the two signal registers yield the bytes
`MSB` and `LSB`, `getFieldStrength` returns `Raw + Raw / 4` with the division truncating
toward zero, where `Raw = 256 * (MSB & 0x7F) + LSB - 16384`; this is `1.25 * Raw` rounded
toward zero: it is the truncated quotient of `5 * Raw` by `4`, it differs from `1.25 * Raw`
by less than `1`, never exceeds it in absolute value, and is exact when `4` divides `Raw`. -/
theorem getFieldStrength_20mT (dev dev1 dev2 : si7210 σ) (m0 l0 MSB LSB : Nat) (ok1 ok2 : Bool)
    (hrange : dev.range = si7210_range_t.RANGE_20mT)
    (hm : readRegister REG_DSPSIGM m0 dev = ((ok1, MSB), dev1))
    (hl : readRegister REG_DSPSIGL l0 dev1 = ((ok2, LSB), dev2))
    (hL : LSB < 256) :
    (getFieldStrength m0 l0 dev).1
        = (256 * ((MSB &&& 0x7F : Nat) : Int) + LSB - 16384)
          + Int.tdiv (256 * ((MSB &&& 0x7F : Nat) : Int) + LSB - 16384) 4
      ∧ (getFieldStrength m0 l0 dev).1
        = Int.tdiv (5 * (256 * ((MSB &&& 0x7F : Nat) : Int) + LSB - 16384)) 4
      ∧ |(((getFieldStrength m0 l0 dev).1 : Int) : ℚ)
          - 1.25 * (((256 * ((MSB &&& 0x7F : Nat) : Int) + LSB - 16384 : Int)) : ℚ)| < 1
      ∧ |(((getFieldStrength m0 l0 dev).1 : Int) : ℚ)|
          ≤ |1.25 * (((256 * ((MSB &&& 0x7F : Nat) : Int) + LSB - 16384 : Int)) : ℚ)|
      ∧ ((4 : Int) ∣ (256 * ((MSB &&& 0x7F : Nat) : Int) + LSB - 16384) →
          (((getFieldStrength m0 l0 dev).1 : Int) : ℚ)
            = 1.25 * (((256 * ((MSB &&& 0x7F : Nat) : Int) + LSB - 16384 : Int)) : ℚ)) := by
  rw [getFieldStrength_eq dev dev1 dev2 m0 l0 MSB LSB ok1 ok2 hm hl]
  simp only [hrange, rawValue MSB LSB hL]
  have hx : MSB &&& 0x7F ≤ 0x7F := Nat.and_le_right
  generalize MSB &&& 0x7F = x at hx ⊢
  generalize hR : (256 * (x : Int) + (LSB : Int) - 16384) = Raw
  have hlo : -16384 ≤ Raw := by omega
  have hhi : Raw ≤ 16383 := by omega
  have h5 := tdiv_pos_cases (5 * Raw)
  have h1 := tdiv_pos_cases Raw
  generalize hq : Int.tdiv Raw 4 = q at h1 ⊢
  generalize hq5 : Int.tdiv (5 * Raw) 4 = q5 at h5 ⊢
  have hres : wrapInt32 (wrapInt32 q + Raw) = Raw + q := by
    unfold wrapInt32; omega
  rw [hres]
  have hqq : Raw + q = q5 := by omega
  have h125 : (1.25 : ℚ) = 5 / 4 := by norm_num
  rw [h125]
  push_cast
  refine ⟨rfl, hqq, ?_, ?_, ?_⟩
  · rw [abs_lt]
    have e1 : (-4 : Int) < 4 * (Raw + q) - 5 * Raw := by omega
    have e2 : 4 * (Raw + q) - 5 * Raw < (4 : Int) := by omega
    have e1q : ((-4 : Int) : ℚ) < ((4 * (Raw + q) - 5 * Raw : Int) : ℚ) := by exact_mod_cast e1
    have e2q : ((4 * (Raw + q) - 5 * Raw : Int) : ℚ) < ((4 : Int) : ℚ) := by exact_mod_cast e2
    push_cast at e1q e2q
    constructor <;> linarith
  · rcases h1 with ⟨h0, hd⟩ | ⟨h0, hd⟩
    · have e1 : 0 ≤ Raw + q := by omega
      have e2 : 4 * (Raw + q) ≤ 5 * Raw := by omega
      have e1q : ((0 : Int) : ℚ) ≤ ((Raw + q : Int) : ℚ) := by exact_mod_cast e1
      have e2q : ((4 * (Raw + q) : Int) : ℚ) ≤ ((5 * Raw : Int) : ℚ) := by exact_mod_cast e2
      have e0q : ((0 : Int) : ℚ) ≤ ((Raw : Int) : ℚ) := by exact_mod_cast h0
      push_cast at e1q e2q e0q
      rw [abs_of_nonneg e1q, abs_of_nonneg (by linarith)]
      linarith
    · have e1 : Raw + q ≤ 0 := by omega
      have e2 : 5 * Raw ≤ 4 * (Raw + q) := by omega
      have e1q : ((Raw + q : Int) : ℚ) ≤ ((0 : Int) : ℚ) := by exact_mod_cast e1
      have e2q : ((5 * Raw : Int) : ℚ) ≤ ((4 * (Raw + q) : Int) : ℚ) := by exact_mod_cast e2
      have e0q : ((Raw : Int) : ℚ) < ((0 : Int) : ℚ) := by exact_mod_cast h0
      push_cast at e1q e2q e0q
      rw [abs_of_nonpos e1q, abs_of_nonpos (by linarith)]
      linarith
  · intro hdvd
    have e : 4 * (Raw + q) = 5 * Raw := by omega
    have eq : ((4 * (Raw + q) : Int) : ℚ) = ((5 * Raw : Int) : ℚ) := by exact_mod_cast e
    push_cast at eq
    linarith

/-- Witness for C1: the signal bytes `0x40`, `0x00` at 20 mT give `Raw = 0` and result `0`. -/
theorem getFieldStrength_20mT_witness :
    (getFieldStrength 0 0 (scriptDev (fun _ => 0) (fun n => if n = 1 then some 0x40 else some 0x00)
      si7210_range_t.RANGE_20mT si7210_magnet_t.NONE)).1 = 0 :=
  (getFieldStrength_20mT
    (scriptDev (fun _ => 0) (fun n => if n = 1 then some 0x40 else some 0x00)
      si7210_range_t.RANGE_20mT si7210_magnet_t.NONE) _ _ 0 0 0x40 0x00 _ _ rfl rfl rfl
    (by decide)).1.trans (by decide)

/-- C2: on a device whose range is 200 mT, when the two signal registers yield the bytes
`MSB` and `LSB`, `getFieldStrength` returns `12 * Raw + Raw / 2` with the division truncating
toward zero, where `Raw = 256 * (MSB & 0x7F) + LSB - 16384`; this is `12.5 * Raw` rounded
toward zero: it is the truncated quotient of `25 * Raw` by `2`, it differs from `12.5 * Raw`
by less than `1` and never exceeds it in absolute value. -/
theorem getFieldStrength_200mT (dev dev1 dev2 : si7210 σ) (m0 l0 MSB LSB : Nat)
    (ok1 ok2 : Bool)
    (hrange : dev.range = si7210_range_t.RANGE_200mT)
    (hm : readRegister REG_DSPSIGM m0 dev = ((ok1, MSB), dev1))
    (hl : readRegister REG_DSPSIGL l0 dev1 = ((ok2, LSB), dev2))
    (hL : LSB < 256) :
    (getFieldStrength m0 l0 dev).1
        = 12 * (256 * ((MSB &&& 0x7F : Nat) : Int) + LSB - 16384)
          + Int.tdiv (256 * ((MSB &&& 0x7F : Nat) : Int) + LSB - 16384) 2
      ∧ (getFieldStrength m0 l0 dev).1
        = Int.tdiv (25 * (256 * ((MSB &&& 0x7F : Nat) : Int) + LSB - 16384)) 2
      ∧ |(((getFieldStrength m0 l0 dev).1 : Int) : ℚ)
          - 12.5 * (((256 * ((MSB &&& 0x7F : Nat) : Int) + LSB - 16384 : Int)) : ℚ)| < 1
      ∧ |(((getFieldStrength m0 l0 dev).1 : Int) : ℚ)|
          ≤ |12.5 * (((256 * ((MSB &&& 0x7F : Nat) : Int) + LSB - 16384 : Int)) : ℚ)| := by
  rw [getFieldStrength_eq dev dev1 dev2 m0 l0 MSB LSB ok1 ok2 hm hl]
  simp only [hrange, rawValue MSB LSB hL]
  have hx : MSB &&& 0x7F ≤ 0x7F := Nat.and_le_right
  generalize MSB &&& 0x7F = x at hx ⊢
  generalize hR : (256 * (x : Int) + (LSB : Int) - 16384) = Raw
  have hlo : -16384 ≤ Raw := by omega
  have hhi : Raw ≤ 16383 := by omega
  have h25 := tdiv_two_cases (25 * Raw)
  have h1 := tdiv_two_cases Raw
  generalize hq : Int.tdiv Raw 2 = q at h1 ⊢
  generalize hq25 : Int.tdiv (25 * Raw) 2 = q25 at h25 ⊢
  have hres : wrapInt32 (wrapInt32 (Raw * 12) + wrapInt32 q) = 12 * Raw + q := by
    unfold wrapInt32; omega
  rw [hres]
  have hqq : 12 * Raw + q = q25 := by omega
  have h125 : (12.5 : ℚ) = 25 / 2 := by norm_num
  rw [h125]
  push_cast
  refine ⟨rfl, hqq, ?_, ?_⟩
  · rw [abs_lt]
    have e1 : (-2 : Int) < 2 * (12 * Raw + q) - 25 * Raw := by omega
    have e2 : 2 * (12 * Raw + q) - 25 * Raw < (2 : Int) := by omega
    have e1q : ((-2 : Int) : ℚ) < ((2 * (12 * Raw + q) - 25 * Raw : Int) : ℚ) := by
      exact_mod_cast e1
    have e2q : ((2 * (12 * Raw + q) - 25 * Raw : Int) : ℚ) < ((2 : Int) : ℚ) := by
      exact_mod_cast e2
    push_cast at e1q e2q
    constructor <;> linarith
  · rcases h1 with ⟨h0, hd⟩ | ⟨h0, hd⟩
    · have e1 : 0 ≤ 12 * Raw + q := by omega
      have e2 : 2 * (12 * Raw + q) ≤ 25 * Raw := by omega
      have e1q : ((0 : Int) : ℚ) ≤ ((12 * Raw + q : Int) : ℚ) := by exact_mod_cast e1
      have e2q : ((2 * (12 * Raw + q) : Int) : ℚ) ≤ ((25 * Raw : Int) : ℚ) := by
        exact_mod_cast e2
      have e0q : ((0 : Int) : ℚ) ≤ ((Raw : Int) : ℚ) := by exact_mod_cast h0
      push_cast at e1q e2q e0q
      rw [abs_of_nonneg e1q, abs_of_nonneg (by linarith)]
      linarith
    · have e1 : 12 * Raw + q ≤ 0 := by omega
      have e2 : 25 * Raw ≤ 2 * (12 * Raw + q) := by omega
      have e1q : ((12 * Raw + q : Int) : ℚ) ≤ ((0 : Int) : ℚ) := by exact_mod_cast e1
      have e2q : ((25 * Raw : Int) : ℚ) ≤ ((2 * (12 * Raw + q) : Int) : ℚ) := by
        exact_mod_cast e2
      have e0q : ((Raw : Int) : ℚ) < ((0 : Int) : ℚ) := by exact_mod_cast h0
      push_cast at e1q e2q e0q
      rw [abs_of_nonpos e1q, abs_of_nonpos (by linarith)]
      linarith

theorem mask_fresh_bit (m : Nat) : (m ^^^ 0x80) &&& 0x7F = m &&& 0x7F := by
  have h : (0x80 &&& 0x7F : Nat) = 0 := by decide
  rw [Nat.and_xor_distrib_right, h, Nat.xor_zero]

/-- C3: the fresh-data bit is not part of the measurement.  For two devices with the same
range (on any two buses), if the signal registers of the first yield `(MSB, LSB)` and those of
the second yield `(MSB xor 0x80, LSB)`, then `getFieldStrength` returns the same value on
both. -/
theorem getFieldStrength_fresh_bit {τ : Type} (dev dev1 dev2 : si7210 σ)
    (dev' dev1' dev2' : si7210 τ)
    (m0 l0 m0' l0' MSB LSB : Nat) (ok1 ok2 ok1' ok2' : Bool)
    (hrange : dev'.range = dev.range)
    (hm : readRegister REG_DSPSIGM m0 dev = ((ok1, MSB), dev1))
    (hl : readRegister REG_DSPSIGL l0 dev1 = ((ok2, LSB), dev2))
    (hm' : readRegister REG_DSPSIGM m0' dev' = ((ok1', MSB ^^^ 0x80), dev1'))
    (hl' : readRegister REG_DSPSIGL l0' dev1' = ((ok2', LSB), dev2')) :
    (getFieldStrength m0' l0' dev').1 = (getFieldStrength m0 l0 dev).1 := by
  rw [getFieldStrength_eq dev dev1 dev2 m0 l0 MSB LSB ok1 ok2 hm hl,
    getFieldStrength_eq dev' dev1' dev2' m0' l0' (MSB ^^^ 0x80) LSB ok1' ok2' hm' hl']
  simp only [hrange, mask_fresh_bit]

/-- Witness for C2: the signal bytes `0x7F`, `0xFF` at 200 mT give `Raw = 16383` and result
`204787`. -/
theorem getFieldStrength_200mT_witness :
    (getFieldStrength 0 0 (scriptDev (fun _ => 0) (fun n => if n = 1 then some 0x7F else some 0xFF)
      si7210_range_t.RANGE_200mT si7210_magnet_t.NONE)).1 = 204787 :=
  (getFieldStrength_200mT
    (scriptDev (fun _ => 0) (fun n => if n = 1 then some 0x7F else some 0xFF)
      si7210_range_t.RANGE_200mT si7210_magnet_t.NONE) _ _ 0 0 0x7F 0xFF _ _ rfl rfl rfl
    (by decide)).1.trans (by decide)

/-- Witness for C3: the bytes `(0x3F, 0xFD)` and `(0xBF, 0xFD)` give the same value at
200 mT. -/
theorem getFieldStrength_fresh_bit_witness :
    (getFieldStrength 0 0 (scriptDev (fun _ => 0) (fun n => if n = 1 then some 0xBF else some 0xFD)
      si7210_range_t.RANGE_200mT si7210_magnet_t.NONE)).1
    = (getFieldStrength 0 0 (scriptDev (fun _ => 0)
        (fun n => if n = 1 then some 0x3F else some 0xFD)
        si7210_range_t.RANGE_200mT si7210_magnet_t.NONE)).1 :=
  getFieldStrength_fresh_bit
    (scriptDev (fun _ => 0) (fun n => if n = 1 then some 0x3F else some 0xFD)
      si7210_range_t.RANGE_200mT si7210_magnet_t.NONE) _ _
    (scriptDev (fun _ => 0) (fun n => if n = 1 then some 0xBF else some 0xFD)
      si7210_range_t.RANGE_200mT si7210_magnet_t.NONE) _ _
    0 0 0 0 0x3F 0xFD _ _ _ _ rfl rfl rfl rfl rfl

/-! ## Register transport and the calibration selector -/

theorem setRange_eq_cycles (r : si7210_range_t) (mag : si7210_magnet_t) (temp : Nat) :
    (setRange r mag temp : StateM (si7210 σ) Bool) = (do
      let (_, temp) ← otpCycle (otpBase r mag) REG_A0 temp
      let (_, temp) ← otpCycle (otpBase r mag + 1) REG_A1 temp
      let (_, temp) ← otpCycle (otpBase r mag + 2) REG_A2 temp
      let (_, temp) ← otpCycle (otpBase r mag + 3) REG_A3 temp
      let (_, temp) ← otpCycle (otpBase r mag + 4) REG_A4 temp
      let (ok, _) ← otpCycle (otpBase r mag + 5) REG_A5 temp
      return ok) := by
  cases r <;> cases mag <;> rfl

theorem frame_refl (dev : si7210 σ) : Frame dev dev :=
  ⟨rfl, rfl, rfl, rfl, rfl, rfl, rfl, rfl⟩

theorem frame_trans {a b c : si7210 σ} (h1 : Frame a b) (h2 : Frame b c) : Frame a c := by
  obtain ⟨a1, a2, a3, a4, a5, a6, a7, a8⟩ := h1
  obtain ⟨b1, b2, b3, b4, b5, b6, b7, b8⟩ := h2
  exact ⟨b1.trans a1, b2.trans a2, b3.trans a3, b4.trans a4, b5.trans a5, b6.trans a6,
    b7.trans a7, b8.trans a8⟩

theorem writeAnswer_of_frame {dev dev' : si7210 σ} (h : Frame dev dev') {st : Int}
    (hw : WriteAnswer dev'.i2c st) : WriteAnswer dev.i2c st := by
  obtain ⟨s, a, d, r, e⟩ := hw
  exact ⟨s, a, d, r, by rw [e, h.2.2.2.2.2.2.1]⟩

theorem readAnswer_of_frame {dev dev' : si7210 σ} (h : Frame dev dev') {st : Int}
    {data : Option Nat} (hw : ReadAnswer dev'.i2c st data) : ReadAnswer dev.i2c st data := by
  obtain ⟨s, a, n, r, e⟩ := hw
  exact ⟨s, a, n, r, by rw [e, h.2.2.2.2.2.2.2]⟩

theorem writeRegister_run (reg data : Nat) (dev : si7210 σ) :
    ∃ st : Int, WriteAnswer dev.i2c st ∧
      (writeRegister reg data dev).1 = decide (st = 0) ∧
      Frame dev (writeRegister reg data dev).2 ∧
      (writeRegister reg data dev).2.i2c.log
        = dev.i2c.log ++ [Txn.write dev.devAddr8Bit [reg % 256, data % 256] false st] :=
  ⟨(dev.i2c.onWrite dev.i2c.state dev.devAddr8Bit [reg % 256, data % 256] false).2,
    ⟨_, _, _, _, rfl⟩, rfl, ⟨rfl, rfl, rfl, rfl, rfl, rfl, rfl, rfl⟩, rfl⟩

theorem readRegister_run (reg buf : Nat) (dev : si7210 σ) :
    ∃ (st1 st2 : Int) (data : Option Nat), WriteAnswer dev.i2c st1 ∧
      ReadAnswer dev.i2c st2 data ∧
      (readRegister reg buf dev).1 = (decide (st2 = 0), bufferAfter buf data) ∧
      Frame dev (readRegister reg buf dev).2 ∧
      (readRegister reg buf dev).2.i2c.log
        = dev.i2c.log ++ [Txn.write dev.devAddr8Bit [reg % 256] true st1,
            Txn.read dev.devAddr8Bit 1 false st2 data] :=
  ⟨(dev.i2c.onWrite dev.i2c.state dev.devAddr8Bit [reg % 256] true).2,
    (dev.i2c.onRead (dev.i2c.onWrite dev.i2c.state dev.devAddr8Bit [reg % 256] true).1
      dev.devAddr8Bit 1 false).2.1,
    (dev.i2c.onRead (dev.i2c.onWrite dev.i2c.state dev.devAddr8Bit [reg % 256] true).1
      dev.devAddr8Bit 1 false).2.2,
    ⟨_, _, _, _, rfl⟩, ⟨_, _, _, _, rfl⟩, rfl, ⟨rfl, rfl, rfl, rfl, rfl, rfl, rfl, rfl⟩,
    by simp [readRegister, I2C.write, I2C.read]⟩

theorem otpCycle_run (src dst temp : Nat) (hs : src < 256) (hd : dst < 256) (dev : si7210 σ) :
    ∃ ans : CycleAnswers, FromBus dev.i2c ans ∧
      (otpCycle src dst temp dev).1 = (decide (ans.stDest = 0), bufferAfter temp ans.data) ∧
      Frame dev (otpCycle src dst temp dev).2 ∧
      (otpCycle src dst temp dev).2.i2c.log
        = dev.i2c.log ++ cycleTxns dev.devAddr8Bit src dst temp ans := by
  obtain ⟨s1, w1, -, f1, l1⟩ := writeRegister_run REG_OTP_ADDR src dev
  generalize hdev1 : (writeRegister REG_OTP_ADDR src dev).2 = dev1 at f1 l1
  obtain ⟨s2, w2, -, f2, l2⟩ := writeRegister_run REG_OTP_CTRL OTP_READ_EN_MASK dev1
  generalize hdev2 : (writeRegister REG_OTP_CTRL OTP_READ_EN_MASK dev1).2 = dev2 at f2 l2
  obtain ⟨s3, s4, rd, w3, w4, r4, f3, l3⟩ := readRegister_run REG_OTP_DATA temp dev2
  generalize hdev3 : (readRegister REG_OTP_DATA temp dev2).2 = dev3 at f3 l3
  obtain ⟨s5, w5, r5, f4, l4⟩ := writeRegister_run dst (bufferAfter temp rd) dev3
  have e : otpCycle src dst temp dev
      = ((decide (s5 = 0), bufferAfter temp rd),
          (writeRegister dst (bufferAfter temp rd) dev3).2) := by
    simp only [otpCycle, bind_run, pure_run, hdev1, hdev2, hdev3, r4, r5]
  have a1 : dev1.devAddr8Bit = dev.devAddr8Bit := f1.2.1
  have g2 : Frame dev dev2 := frame_trans f1 f2
  have g3 : Frame dev dev3 := frame_trans g2 f3
  have a2 : dev2.devAddr8Bit = dev.devAddr8Bit := g2.2.1
  have a3 : dev3.devAddr8Bit = dev.devAddr8Bit := g3.2.1
  refine ⟨⟨s1, s2, s3, s4, rd, s5⟩, ⟨w1, writeAnswer_of_frame f1 w2,
    writeAnswer_of_frame g2 w3, readAnswer_of_frame g2 w4, writeAnswer_of_frame g3 w5⟩,
    ?_, ?_, ?_⟩
  · rw [e]
  · rw [e]
    exact frame_trans g3 f4
  · rw [e]
    simp only [l4, l3, l2, l1, a1, a2, a3, cycleTxns, REG_OTP_ADDR, REG_OTP_CTRL, REG_OTP_DATA,
      OTP_READ_EN_MASK, List.append_assoc, List.cons_append, List.nil_append,
      Nat.mod_eq_of_lt hs, Nat.mod_eq_of_lt hd]

theorem fromBus_of_frame {dev dev' : si7210 σ} (h : Frame dev dev') {ans : CycleAnswers}
    (hw : FromBus dev'.i2c ans) : FromBus dev.i2c ans :=
  ⟨writeAnswer_of_frame h hw.1, writeAnswer_of_frame h hw.2.1,
    writeAnswer_of_frame h hw.2.2.1, readAnswer_of_frame h hw.2.2.2.1,
    writeAnswer_of_frame h hw.2.2.2.2⟩

theorem otpBase_lt (r : si7210_range_t) (mag : si7210_magnet_t) : otpBase r mag + 5 < 256 := by
  cases r <;> cases mag <;> decide

theorem setRange_run (r : si7210_range_t) (mag : si7210_magnet_t) (temp : Nat)
    (dev : si7210 σ) :
    ∃ a0 a1 a2 a3 a4 a5 : CycleAnswers,
      (FromBus dev.i2c a0 ∧ FromBus dev.i2c a1 ∧ FromBus dev.i2c a2 ∧ FromBus dev.i2c a3 ∧
        FromBus dev.i2c a4 ∧ FromBus dev.i2c a5) ∧
      (setRange r mag temp dev).1 = decide (a5.stDest = 0) ∧
      Frame dev (setRange r mag temp dev).2 ∧
      (setRange r mag temp dev).2.i2c.log
        = dev.i2c.log
          ++ calibrationTxns dev.devAddr8Bit (otpBase r mag) temp a0 a1 a2 a3 a4 a5 := by
  have hb := otpBase_lt r mag
  obtain ⟨a0, b0, r0, f0, l0⟩ :=
    otpCycle_run (otpBase r mag) REG_A0 temp (by omega) (by decide) dev
  generalize h0 : (otpCycle (otpBase r mag) REG_A0 temp dev).2 = d0 at f0 l0
  obtain ⟨a1, b1, r1, f1, l1⟩ :=
    otpCycle_run (otpBase r mag + 1) REG_A1 (bufferAfter temp a0.data) (by omega) (by decide) d0
  generalize h1 : (otpCycle (otpBase r mag + 1) REG_A1 (bufferAfter temp a0.data) d0).2 = d1 at f1 l1
  obtain ⟨a2, b2, r2, f2, l2⟩ :=
    otpCycle_run (otpBase r mag + 2) REG_A2 (bufferAfter (bufferAfter temp a0.data) a1.data) (by omega) (by decide) d1
  generalize h2 : (otpCycle (otpBase r mag + 2) REG_A2 (bufferAfter (bufferAfter temp a0.data) a1.data) d1).2 = d2 at f2 l2
  obtain ⟨a3, b3, r3, f3, l3⟩ :=
    otpCycle_run (otpBase r mag + 3) REG_A3 (bufferAfter (bufferAfter (bufferAfter temp a0.data) a1.data) a2.data) (by omega) (by decide) d2
  generalize h3 : (otpCycle (otpBase r mag + 3) REG_A3 (bufferAfter (bufferAfter (bufferAfter temp a0.data) a1.data) a2.data) d2).2 = d3 at f3 l3
  obtain ⟨a4, b4, r4, f4, l4⟩ :=
    otpCycle_run (otpBase r mag + 4) REG_A4 (bufferAfter (bufferAfter (bufferAfter (bufferAfter temp a0.data) a1.data) a2.data) a3.data) (by omega) (by decide) d3
  generalize h4 : (otpCycle (otpBase r mag + 4) REG_A4 (bufferAfter (bufferAfter (bufferAfter (bufferAfter temp a0.data) a1.data) a2.data) a3.data) d3).2 = d4 at f4 l4
  obtain ⟨a5, b5, r5, f5, l5⟩ :=
    otpCycle_run (otpBase r mag + 5) REG_A5 (bufferAfter (bufferAfter (bufferAfter (bufferAfter (bufferAfter temp a0.data) a1.data) a2.data) a3.data) a4.data) (by omega) (by decide) d4
  generalize h5 : (otpCycle (otpBase r mag + 5) REG_A5 (bufferAfter (bufferAfter (bufferAfter (bufferAfter (bufferAfter temp a0.data) a1.data) a2.data) a3.data) a4.data) d4).2 = d5 at f5 l5
  have g1 : Frame dev d1 := frame_trans f0 f1
  have g2 : Frame dev d2 := frame_trans g1 f2
  have g3 : Frame dev d3 := frame_trans g2 f3
  have g4 : Frame dev d4 := frame_trans g3 f4
  have g5 : Frame dev d5 := frame_trans g4 f5
  have e : setRange r mag temp dev = (decide (a5.stDest = 0), d5) := by
    rw [setRange_eq_cycles]
    simp only [bind_run, pure_run, r0, h0, r1, h1, r2, h2, r3, h3, r4, h4, r5, h5]
  refine ⟨a0, a1, a2, a3, a4, a5, ⟨b0, fromBus_of_frame f0 b1, fromBus_of_frame g1 b2,
    fromBus_of_frame g2 b3, fromBus_of_frame g3 b4, fromBus_of_frame g4 b5⟩, ?_, ?_, ?_⟩
  · rw [e]
  · rw [e]
    exact g5
  · rw [e]
    simp only [l5, l4, l3, l2, l1, l0, f0.2.1, g1.2.1, g2.2.1, g3.2.1, g4.2.1, calibrationTxns,
      REG_A0, REG_A1, REG_A2, REG_A3, REG_A4, REG_A5, List.append_assoc]

theorem cycleTxns_acked {bus : I2C σ} (hack : Acknowledges bus) {ans : CycleAnswers}
    (h : FromBus bus ans) :
    ∃ d, d < 256 ∧ ∀ a src dst buf,
      cycleTxns a src dst buf ans = ackedCycle a src dst d ∧ bufferAfter buf ans.data = d := by
  obtain ⟨⟨s1, x1, y1, z1, e1⟩, ⟨s2, x2, y2, z2, e2⟩, ⟨s3, x3, y3, z3, e3⟩,
    ⟨s4, x4, y4, z4, e4⟩, ⟨s5, x5, y5, z5, e5⟩⟩ := h
  obtain ⟨hs, d, hd, hdata⟩ := hack.2 s4 x4 y4 z4
  have e4a : ans.stRead = 0 := by
    have := congrArg Prod.fst e4
    simpa [hs] using this
  have e4b : ans.data = some d := by
    have := congrArg Prod.snd e4
    simpa [hdata] using this
  refine ⟨d, hd, fun a src dst buf => ?_⟩
  rw [hack.1] at e1 e2 e3 e5
  simp only [cycleTxns, ackedCycle, e1, e2, e3, e4a, e4b, e5, bufferAfter,
    Nat.mod_eq_of_lt hd, Nat.mod_mod, and_self]

/-- C4: on a bus that acknowledges, `setRange` issues, for each of the six (range, magnet)
pairs, exactly six cycles `i = 0..5` and nothing else; cycle `i` writes `base + i` to the OTP
address register `0xE1`, writes `0x02` to the OTP control register `0xE3`, reads a byte `d_i`
from the OTP data register `0xE2` and writes `d_i` to the destination `A_i`, the destinations
being `0xCA, 0xCB, 0xCC, 0xCE, 0xCF, 0xD0` in this order.  The base is `0x21` for
(20 mT, None), `0x27` for (200 mT, None), `0x2D` for (20 mT, Neodymium), `0x33` for
(200 mT, Neodymium), `0x39` for (20 mT, Ceramic) and `0x3F` for (200 mT, Ceramic). -/
theorem setRange_cycles (r : si7210_range_t) (mag : si7210_magnet_t) (temp : Nat)
    (dev : si7210 σ) (hack : Acknowledges dev.i2c) :
    (∃ d0 d1 d2 d3 d4 d5 : Nat,
      (d0 < 256 ∧ d1 < 256 ∧ d2 < 256 ∧ d3 < 256 ∧ d4 < 256 ∧ d5 < 256) ∧
      (setRange r mag temp dev).2.i2c.log
        = dev.i2c.log
          ++ (ackedCycle dev.devAddr8Bit (otpBase r mag) 0xCA d0
            ++ ackedCycle dev.devAddr8Bit (otpBase r mag + 1) 0xCB d1
            ++ ackedCycle dev.devAddr8Bit (otpBase r mag + 2) 0xCC d2
            ++ ackedCycle dev.devAddr8Bit (otpBase r mag + 3) 0xCE d3
            ++ ackedCycle dev.devAddr8Bit (otpBase r mag + 4) 0xCF d4
            ++ ackedCycle dev.devAddr8Bit (otpBase r mag + 5) 0xD0 d5))
    ∧ otpBase si7210_range_t.RANGE_20mT si7210_magnet_t.NONE = 0x21
    ∧ otpBase si7210_range_t.RANGE_200mT si7210_magnet_t.NONE = 0x27
    ∧ otpBase si7210_range_t.RANGE_20mT si7210_magnet_t.NEODYMIUM = 0x2D
    ∧ otpBase si7210_range_t.RANGE_200mT si7210_magnet_t.NEODYMIUM = 0x33
    ∧ otpBase si7210_range_t.RANGE_20mT si7210_magnet_t.CERAMIC = 0x39
    ∧ otpBase si7210_range_t.RANGE_200mT si7210_magnet_t.CERAMIC = 0x3F := by
  refine ⟨?_, rfl, rfl, rfl, rfl, rfl, rfl⟩
  obtain ⟨a0, a1, a2, a3, a4, a5, ⟨b0, b1, b2, b3, b4, b5⟩, -, -, hlog⟩ :=
    setRange_run r mag temp dev
  obtain ⟨d0, h0, c0⟩ := cycleTxns_acked hack b0
  obtain ⟨d1, h1, c1⟩ := cycleTxns_acked hack b1
  obtain ⟨d2, h2, c2⟩ := cycleTxns_acked hack b2
  obtain ⟨d3, h3, c3⟩ := cycleTxns_acked hack b3
  obtain ⟨d4, h4, c4⟩ := cycleTxns_acked hack b4
  obtain ⟨d5, h5, c5⟩ := cycleTxns_acked hack b5
  refine ⟨d0, d1, d2, d3, d4, d5, ⟨h0, h1, h2, h3, h4, h5⟩, ?_⟩
  rw [hlog]
  simp only [calibrationTxns, (c0 _ _ _ _).1, (c1 _ _ _ _).1, (c2 _ _ _ _).1, (c3 _ _ _ _).1,
    (c4 _ _ _ _).1, (c5 _ _ _ _).1]

theorem scriptBus_acknowledges : Acknowledges (scriptBus (fun _ => 0) (fun n => some (n % 256))) :=
  ⟨fun _ _ _ _ => rfl, fun s _ _ _ => ⟨rfl, s % 256, Nat.mod_lt _ (by decide), rfl⟩⟩

/-- Witness for C4: on a scripted bus that acknowledges everything, the call
`setRange(RANGE_20mT, NEODYMIUM)` issues six cycles from base `0x2D`. -/
theorem setRange_cycles_witness :
    ∃ d0 d1 d2 d3 d4 d5 : Nat,
      (d0 < 256 ∧ d1 < 256 ∧ d2 < 256 ∧ d3 < 256 ∧ d4 < 256 ∧ d5 < 256) ∧
      (setRange si7210_range_t.RANGE_20mT si7210_magnet_t.NEODYMIUM 0
        (scriptDev (fun _ => 0) (fun n => some (n % 256)) si7210_range_t.RANGE_20mT
          si7210_magnet_t.NEODYMIUM)).2.i2c.log
        = [] ++ (ackedCycle 0x62 (0x2D) 0xCA d0 ++ ackedCycle 0x62 (0x2D + 1) 0xCB d1
            ++ ackedCycle 0x62 (0x2D + 2) 0xCC d2 ++ ackedCycle 0x62 (0x2D + 3) 0xCE d3
            ++ ackedCycle 0x62 (0x2D + 4) 0xCF d4 ++ ackedCycle 0x62 (0x2D + 5) 0xD0 d5) :=
  (setRange_cycles si7210_range_t.RANGE_20mT si7210_magnet_t.NEODYMIUM 0
    (scriptDev (fun _ => 0) (fun n => some (n % 256)) si7210_range_t.RANGE_20mT
      si7210_magnet_t.NEODYMIUM) scriptBus_acknowledges).1

theorem issued_of_log {before after : si7210 σ} {l : List Txn}
    (h : after.i2c.log = before.i2c.log ++ l) : issued before after = l := by
  simp [issued, h]

theorem otpSources_calibrationTxns (a base buf : Nat) (a0 a1 a2 a3 a4 a5 : CycleAnswers) :
    otpSources (calibrationTxns a base buf a0 a1 a2 a3 a4 a5)
      = [base, base + 1, base + 2, base + 3, base + 4, base + 5] := by
  simp [calibrationTxns, cycleTxns, otpSources, REG_OTP_ADDR]

theorem setRange_otpSources (r : si7210_range_t) (mag : si7210_magnet_t) (temp : Nat)
    (dev : si7210 σ) :
    otpSources (issued dev (setRange r mag temp dev).2)
      = [otpBase r mag, otpBase r mag + 1, otpBase r mag + 2, otpBase r mag + 3,
          otpBase r mag + 4, otpBase r mag + 5] := by
  obtain ⟨a0, a1, a2, a3, a4, a5, -, -, -, hlog⟩ := setRange_run r mag temp dev
  rw [issued_of_log hlog, otpSources_calibrationTxns]

/-- C5: the OTP source addresses that `setRange` writes to the OTP address register are, for
each (range, magnet) pair, six consecutive addresses increasing by one per step (so every
pair selects a set, none is rejected), and for two distinct pairs, on any two devices, the
two sets have no address in common. -/
theorem setRange_sources_disjoint {τ : Type} (r r' : si7210_range_t)
    (mag mag' : si7210_magnet_t) (temp temp' : Nat) (dev : si7210 σ) (dev' : si7210 τ)
    (hne : (r, mag) ≠ (r', mag')) :
    (∃ b, otpSources (issued dev (setRange r mag temp dev).2)
        = [b, b + 1, b + 2, b + 3, b + 4, b + 5])
    ∧ (∃ b', otpSources (issued dev' (setRange r' mag' temp' dev').2)
        = [b', b' + 1, b' + 2, b' + 3, b' + 4, b' + 5])
    ∧ ∀ x, x ∈ otpSources (issued dev (setRange r mag temp dev).2) →
        x ∉ otpSources (issued dev' (setRange r' mag' temp' dev').2) := by
  rw [setRange_otpSources, setRange_otpSources]
  refine ⟨⟨_, rfl⟩, ⟨_, rfl⟩, ?_⟩
  cases r <;> cases mag <;> cases r' <;> cases mag' <;>
    first
    | exact absurd rfl hne
    | (intro x hx hx'
       simp only [otpBase, List.mem_cons, List.mem_singleton, List.not_mem_nil, or_false] at hx hx'
       omega)

/-- Witness for C5: the pairs (20 mT, None) and (200 mT, None) on two scripted buses: the
first call writes the sources `0x21..0x26`, and none of them is written by the second. -/
theorem setRange_sources_disjoint_witness :
    otpSources (issued (scriptDev (fun _ => 0) (fun _ => none)
          si7210_range_t.RANGE_20mT si7210_magnet_t.NONE)
        (setRange si7210_range_t.RANGE_20mT si7210_magnet_t.NONE 0
          (scriptDev (fun _ => 0) (fun _ => none)
            si7210_range_t.RANGE_20mT si7210_magnet_t.NONE)).2)
      = [0x21, 0x22, 0x23, 0x24, 0x25, 0x26]
    ∧ ∀ x, x ∈ otpSources (issued (scriptDev (fun _ => 0) (fun _ => none)
          si7210_range_t.RANGE_20mT si7210_magnet_t.NONE)
        (setRange si7210_range_t.RANGE_20mT si7210_magnet_t.NONE 0
          (scriptDev (fun _ => 0) (fun _ => none)
            si7210_range_t.RANGE_20mT si7210_magnet_t.NONE)).2) →
      x ∉ otpSources (issued (scriptDev (fun _ => 1) (fun _ => some 7)
          si7210_range_t.RANGE_20mT si7210_magnet_t.NONE)
        (setRange si7210_range_t.RANGE_200mT si7210_magnet_t.NONE 0
          (scriptDev (fun _ => 1) (fun _ => some 7)
            si7210_range_t.RANGE_20mT si7210_magnet_t.NONE)).2) :=
  ⟨by decide,
    (setRange_sources_disjoint si7210_range_t.RANGE_20mT si7210_range_t.RANGE_200mT
      si7210_magnet_t.NONE si7210_magnet_t.NONE 0 0
      (scriptDev (fun _ => 0) (fun _ => none) si7210_range_t.RANGE_20mT si7210_magnet_t.NONE)
      (scriptDev (fun _ => 1) (fun _ => some 7) si7210_range_t.RANGE_20mT
        si7210_magnet_t.NONE)
      (by decide)).2.2⟩

/-- C6: for every (range, magnet) pair and every bus, whatever it acknowledges, `setRange`
issues all six cycles (thirty transactions, the last one being the write to `A5`, register
`0xD0`), and it returns true if and only if that last write was acknowledged; the statuses
of the twenty-nine earlier transactions do not enter the result. -/
theorem setRange_result_iff_last_ack (r : si7210_range_t) (mag : si7210_magnet_t)
    (temp : Nat) (dev : si7210 σ) :
    ∃ a0 a1 a2 a3 a4 a5 : CycleAnswers,
      (setRange r mag temp dev).2.i2c.log
        = dev.i2c.log
          ++ calibrationTxns dev.devAddr8Bit (otpBase r mag) temp a0 a1 a2 a3 a4 a5
      ∧ (calibrationTxns dev.devAddr8Bit (otpBase r mag) temp a0 a1 a2 a3 a4 a5).length = 30
      ∧ (∃ d, (setRange r mag temp dev).2.i2c.log.getLast?
          = some (Txn.write dev.devAddr8Bit [0xD0, d] false a5.stDest))
      ∧ ((setRange r mag temp dev).1 = true ↔ a5.stDest = 0) := by
  obtain ⟨a0, a1, a2, a3, a4, a5, -, hres, -, hlog⟩ := setRange_run r mag temp dev
  refine ⟨a0, a1, a2, a3, a4, a5, hlog, ?_, ?_, ?_⟩
  · simp [calibrationTxns, cycleTxns]
  · rw [hlog]
    refine ⟨bufferAfter (bufferAfter (bufferAfter (bufferAfter (bufferAfter
      (bufferAfter temp a0.data) a1.data) a2.data) a3.data) a4.data) a5.data % 256, ?_⟩
    simp [calibrationTxns, cycleTxns, List.getLast?_append]
  · rw [hres]
    simp

/-! ## Filter configurator -/

theorem setFilter_none (f : Filter) (h : f.filterType = si7210_filters_t.NONE)
    (dev : si7210 σ) : setFilter f dev = writeRegister REG_0XCD 0 dev := by
  simp only [setFilter, h]

theorem setFilter_fir_reject (f : Filter) (h : f.filterType = si7210_filters_t.FIR)
    (hb : f.burstsize > 12) (dev : si7210 σ) :
    setFilter f dev = (false, (writeRegister REG_0XCD 0 dev).2) := by
  simp only [setFilter, h, hb, if_true, bind_run, pure_run]

theorem setFilter_iir_reject (f : Filter) (h : f.filterType = si7210_filters_t.IIR)
    (hb : f.burstsize > 12) (dev : si7210 σ) :
    setFilter f dev = (false, (writeRegister REG_0XCD 0 dev).2) := by
  simp only [setFilter, h, hb, if_true, bind_run, pure_run]

theorem setFilter_fir_accept (f : Filter) (h : f.filterType = si7210_filters_t.FIR)
    (hb : ¬ f.burstsize > 12) (dev : si7210 σ) :
    setFilter f dev = writeRegister REG_0XCD (filterByte DF_FIR_MASK f.burstsize) dev := by
  simp only [setFilter, h, hb, if_false, filterByte]

theorem setFilter_iir_accept (f : Filter) (h : f.filterType = si7210_filters_t.IIR)
    (hb : ¬ f.burstsize > 12) (dev : si7210 σ) :
    setFilter f dev = writeRegister REG_0XCD (filterByte DF_IIR_MASK f.burstsize) dev := by
  simp only [setFilter, h, hb, if_false, filterByte]

theorem filterByte_eq (mask : Nat) (b : Int) (hm : mask ≤ 1) (h0 : 0 ≤ b) (h12 : b ≤ 12) :
    filterByte mask b = (b.toNat <<< 1) ||| mask := by
  interval_cases mask <;> interval_cases b <;> rfl

/-- C7: for a filter of type None with any burst size, and for a filter of type FIR or IIR
with burst size `0 <= b <= 12`, `setFilter` issues exactly one bus transaction, the write
of the byte `enc f` to the filter register `0xCD`, and returns true if and only if that
write was acknowledged; `enc` is `0` for None, `(b << 1) | 0` for FIR, `(b << 1) | 1` for
IIR. -/
theorem setFilter_writes_enc (f : Filter) (dev : si7210 σ)
    (hb : f.filterType = si7210_filters_t.NONE ∨ (0 ≤ f.burstsize ∧ f.burstsize ≤ 12)) :
    ∃ st : Int,
      issued dev (setFilter f dev).2 = [Txn.write dev.devAddr8Bit [0xCD, enc f] false st]
      ∧ ((setFilter f dev).1 = true ↔ st = 0) := by
  have key : ∃ v, v < 256 ∧ v = enc f ∧ setFilter f dev = writeRegister REG_0XCD v dev := by
    obtain ⟨ft, b⟩ := f
    cases ft
    · have hb' : 0 ≤ b ∧ b ≤ 12 := by simpa using hb
      refine ⟨filterByte DF_FIR_MASK b, Nat.mod_lt _ (by decide), ?_,
        setFilter_fir_accept _ rfl (by simp; omega) dev⟩
      exact filterByte_eq _ _ (by decide) hb'.1 hb'.2
    · have hb' : 0 ≤ b ∧ b ≤ 12 := by simpa using hb
      refine ⟨filterByte DF_IIR_MASK b, Nat.mod_lt _ (by decide), ?_,
        setFilter_iir_accept _ rfl (by simp; omega) dev⟩
      exact filterByte_eq _ _ (by decide) hb'.1 hb'.2
    · exact ⟨0, by decide, rfl, setFilter_none _ rfl dev⟩
  obtain ⟨v, hv, hve, hrun⟩ := key
  obtain ⟨st, -, hres, -, hlog⟩ := writeRegister_run REG_0XCD v dev
  refine ⟨st, ?_, ?_⟩
  · rw [hrun, issued_of_log hlog, ← hve, Nat.mod_eq_of_lt hv]
    rfl
  · rw [hrun, hres]
    simp

/-- Witness for C7: `{FIR, 5}` writes `10`, `{IIR, 5}` writes `11`, `{FIR, 12}` writes
`24`. -/
theorem setFilter_writes_enc_witness :
    (∃ st : Int,
      issued (scriptDev (fun _ => 0) (fun _ => none) si7210_range_t.RANGE_20mT
          si7210_magnet_t.NONE)
        (setFilter { filterType := si7210_filters_t.FIR, burstsize := 5 }
          (scriptDev (fun _ => 0) (fun _ => none) si7210_range_t.RANGE_20mT
            si7210_magnet_t.NONE)).2 = [Txn.write 0x62 [0xCD, 10] false st]
      ∧ ((setFilter { filterType := si7210_filters_t.FIR, burstsize := 5 }
          (scriptDev (fun _ => 0) (fun _ => none) si7210_range_t.RANGE_20mT
            si7210_magnet_t.NONE)).1 = true ↔ st = 0))
    ∧ enc { filterType := si7210_filters_t.IIR, burstsize := 5 } = 11
    ∧ enc { filterType := si7210_filters_t.FIR, burstsize := 12 } = 24 :=
  ⟨setFilter_writes_enc { filterType := si7210_filters_t.FIR, burstsize := 5 }
    (scriptDev (fun _ => 0) (fun _ => none) si7210_range_t.RANGE_20mT si7210_magnet_t.NONE)
    (Or.inr (by decide)), rfl, rfl⟩

/-- C8: on a bus that acknowledges every write, `setFilter` with type FIR or IIR returns
false if and only if the burst size exceeds `12`, and in that case the only bus transaction
it issues is the write of `0` to the filter register `0xCD`. -/
theorem setFilter_rejects_iff (f : Filter) (dev : si7210 σ)
    (hack : ∀ s a d r, (dev.i2c.onWrite s a d r).2 = 0)
    (ht : f.filterType = si7210_filters_t.FIR ∨ f.filterType = si7210_filters_t.IIR) :
    ((setFilter f dev).1 = false ↔ f.burstsize > 12)
    ∧ (f.burstsize > 12 →
        issued dev (setFilter f dev).2 = [Txn.write dev.devAddr8Bit [0xCD, 0] false 0]) := by
  have hw : ∀ v, (writeRegister REG_0XCD v dev).1 = true
      ∧ issued dev (writeRegister REG_0XCD v dev).2
        = [Txn.write dev.devAddr8Bit [0xCD, v % 256] false 0] := by
    intro v
    obtain ⟨st, ⟨s, a, d, r, hst⟩, hres, -, hlog⟩ := writeRegister_run REG_0XCD v dev
    rw [hack] at hst
    subst hst
    exact ⟨by rw [hres]; rfl, by rw [issued_of_log hlog]; rfl⟩
  by_cases hb : f.burstsize > 12
  · have hrun : setFilter f dev = (false, (writeRegister REG_0XCD 0 dev).2) := by
      rcases ht with h | h
      · exact setFilter_fir_reject f h hb dev
      · exact setFilter_iir_reject f h hb dev
    refine ⟨by simp [hrun, hb], fun _ => ?_⟩
    rw [hrun]
    exact (hw 0).2
  · have hrun : ∃ v, setFilter f dev = writeRegister REG_0XCD v dev := by
      rcases ht with h | h
      · exact ⟨_, setFilter_fir_accept f h hb dev⟩
      · exact ⟨_, setFilter_iir_accept f h hb dev⟩
    obtain ⟨v, hv⟩ := hrun
    refine ⟨?_, fun h => absurd h hb⟩
    rw [hv, (hw v).1]
    simp [hb]

/-- Witness for C8: `{FIR, 13}` writes `0` and returns false. -/
theorem setFilter_rejects_iff_witness :
    (setFilter { filterType := si7210_filters_t.FIR, burstsize := 13 }
      (scriptDev (fun _ => 0) (fun _ => none) si7210_range_t.RANGE_20mT
        si7210_magnet_t.NONE)).1 = false
    ∧ issued (scriptDev (fun _ => 0) (fun _ => none) si7210_range_t.RANGE_20mT
          si7210_magnet_t.NONE)
        (setFilter { filterType := si7210_filters_t.FIR, burstsize := 13 }
          (scriptDev (fun _ => 0) (fun _ => none) si7210_range_t.RANGE_20mT
            si7210_magnet_t.NONE)).2 = [Txn.write 0x62 [0xCD, 0] false 0] :=
  have h := setFilter_rejects_iff { filterType := si7210_filters_t.FIR, burstsize := 13 }
    (scriptDev (fun _ => 0) (fun _ => none) si7210_range_t.RANGE_20mT si7210_magnet_t.NONE)
    (fun _ _ _ _ => rfl) (Or.inl rfl)
  ⟨h.1.mpr (by decide), h.2 (by decide)⟩

/-! ## Identity -/

/-- C9: when the identity register `0xC0` yields the byte `b`, `getChipId` returns the high
nibble `b >> 4`, a value in `0..15`. -/
theorem getChipId_high_nibble (dev dev1 : si7210 σ) (temp0 b : Nat) (ok : Bool)
    (h : readRegister REG_0XC0 temp0 dev = ((ok, b), dev1)) (hb : b < 256) :
    (getChipId temp0 dev).1 = b >>> 4 ∧ (getChipId temp0 dev).1 < 16 := by
  have e : (getChipId temp0 dev).1 = (b >>> 4) % 256 := by
    simp only [getChipId, bind_run, pure_run, h]
  rw [e, Nat.shiftRight_eq_div_pow]
  omega

/-- Witness for C9: the identity byte `0x14` gives chip id `0x1`. -/
theorem getChipId_high_nibble_witness :
    (getChipId 0 (scriptDev (fun _ => 0) (fun _ => some 0x14) si7210_range_t.RANGE_20mT
      si7210_magnet_t.NONE)).1 = 0x1 :=
  (getChipId_high_nibble
    (scriptDev (fun _ => 0) (fun _ => some 0x14) si7210_range_t.RANGE_20mT
      si7210_magnet_t.NONE) _ 0 0x14 _ rfl (by decide)).1

/-- The value of `getRevId`: when the identity register yields the byte `b`, the mask
`~(0x1 << 4)` clears bit 4 of `b` and nothing else. -/
theorem getRevId_eq (dev dev1 : si7210 σ) (temp0 b : Nat) (ok : Bool)
    (h : readRegister REG_0XC0 temp0 dev = ((ok, b), dev1)) :
    (getRevId temp0 dev).1 = (b &&& 0xFFFFFFEF) % 256 := by
  simp only [getRevId, bind_run, pure_run, h]
  rfl

/-- C10 (evaluation of the code at the identity byte `0x24`): `getRevId` returns `0x24`,
which is not in `0..15`, while the low nibble of `0x24` is `0x4`; bits 5..7 of the byte are
not cleared. -/
theorem getRevId_at_0x24 :
    (getRevId 0 (scriptDev (fun _ => 0) (fun _ => some 0x24) si7210_range_t.RANGE_20mT
      si7210_magnet_t.NONE)).1 = 0x24
    ∧ ¬ (getRevId 0 (scriptDev (fun _ => 0) (fun _ => some 0x24) si7210_range_t.RANGE_20mT
      si7210_magnet_t.NONE)).1 < 16
    ∧ 0x24 &&& 0x0F = 0x4 := by
  refine ⟨rfl, ?_, rfl⟩
  decide

/-! ## Health check -/

/-- C11: when the identity register `0xC0` yields the byte `b`, `checkGood` returns true if
and only if `b = 0x14`. -/
theorem checkGood_iff (dev dev1 : si7210 σ) (temp0 b : Nat) (ok : Bool)
    (h : readRegister REG_0XC0 temp0 dev = ((ok, b), dev1)) :
    (checkGood temp0 dev).1 = true ↔ b = 0x14 := by
  have e : (checkGood temp0 dev).1 = decide (b = 0x14) := by
    simp only [checkGood, bind_run, h]
    by_cases hb : b = 0x14
    · simp only [hb, if_true, pure_run, decide_True]
    · simp only [hb, if_false, pure_run, decide_False]
  rw [e]
  simp

/-- Witness for C11: the identity byte `0x14` is accepted. -/
theorem checkGood_iff_witness :
    (checkGood 0 (scriptDev (fun _ => 0) (fun _ => some 0x14) si7210_range_t.RANGE_20mT
      si7210_magnet_t.NONE)).1 = true :=
  (checkGood_iff
    (scriptDev (fun _ => 0) (fun _ => some 0x14) si7210_range_t.RANGE_20mT
      si7210_magnet_t.NONE) _ 0 0x14 _ rfl).mpr rfl

/-! ## Mode control and sleep -/

theorem rmw_run (reg buf : Nat) (f : Nat → Nat) (hr : reg < 256) (dev : si7210 σ) :
    ∃ ans : RegAnswers,
      (rmw reg buf f dev).1 = (decide (ans.stWrite = 0), f (bufferAfter buf ans.data)) ∧
      Frame dev (rmw reg buf f dev).2 ∧
      (rmw reg buf f dev).2.i2c.log
        = dev.i2c.log
          ++ rmwTxns dev.devAddr8Bit reg ans (f (bufferAfter buf ans.data) % 256) := by
  obtain ⟨s1, s2, rd, -, -, r1, f1, l1⟩ := readRegister_run reg buf dev
  generalize h1 : (readRegister reg buf dev).2 = dev1 at f1 l1
  obtain ⟨s3, -, r2, f2, l2⟩ := writeRegister_run reg (f (bufferAfter buf rd)) dev1
  have e : rmw reg buf f dev
      = ((decide (s3 = 0), f (bufferAfter buf rd)),
          (writeRegister reg (f (bufferAfter buf rd)) dev1).2) := by
    simp only [rmw, bind_run, pure_run, r1, h1, r2]
  refine ⟨⟨s1, s2, rd, s3⟩, ?_, ?_, ?_⟩
  · rw [e]
  · rw [e]
    exact frame_trans f1 f2
  · rw [e]
    simp only [l2, l1, f1.2.1, rmwTxns, List.append_assoc, List.cons_append, List.nil_append,
      Nat.mod_eq_of_lt hr]

theorem setMode_const (m : si7210_mode_t) (temp0 : Nat) (dev : si7210 σ)
    (hmode : dev.mode = si7210_mode_t.CONST_CONVERSION) :
    setMode m temp0 dev = (do
      let (_, temp) ← rmw REG_0XC9 temp0 (fun t => (((t ||| (1 <<< 1)) % 256) &&& 0xFE) % 256)
      let (_, temp) ← rmw REG_0XC8 temp (fun _ => 0x0)
      let (_, _) ← rmw REG_0XC4 temp (fun t => (t &&& 0xFC) % 256)
      return true : StateM (si7210 σ) Bool) dev := by
  obtain ⟨bus, a7, a8, r, mag, mode, f⟩ := dev
  simp only at hmode
  subst hmode
  rfl

theorem setMode_oneburst (m : si7210_mode_t) (temp0 : Nat) (dev : si7210 σ)
    (hmode : dev.mode = si7210_mode_t.ONEBURST) :
    setMode m temp0 dev = (false, dev) := by
  obtain ⟨bus, a7, a8, r, mag, mode, f⟩ := dev
  simp only at hmode
  subst hmode
  rfl

theorem sleep_eq (temp0 : Nat) :
    (sleep temp0 : StateM (si7210 σ) Bool) = (do
      let (_, temp) ← rmw REG_0XC9 temp0 (fun t => (t &&& 0xFE) % 256)
      let (ok, _) ← rmw REG_0XC4 temp (fun t => ((t &&& 0xF8) ||| 0x01) % 256)
      return ok) := rfl

theorem mod_and_byte (x m : Nat) (hm : m < 256) : (x % 256) &&& m = x &&& m := by
  have h : x % 256 = x &&& 255 := (Nat.and_pow_two_sub_one_eq_mod x 8).symm
  have h2 : (255 &&& m) = m := by interval_cases m <;> rfl
  rw [h, Nat.and_assoc, h2]

theorem and_byte_mod (x m : Nat) (hm : m < 256) : (x &&& m) % 256 = x &&& m :=
  Nat.mod_eq_of_lt (lt_of_le_of_lt Nat.and_le_right hm)

theorem testBit_or_and (old c d k : Nat) :
    ((old ||| c) &&& d).testBit k = ((old.testBit k || c.testBit k) && d.testBit k) := by
  rw [Nat.testBit_and, Nat.testBit_or]

theorem testBit_and_or (old c d k : Nat) :
    ((old &&& c) ||| d).testBit k = ((old.testBit k && c.testBit k) || d.testBit k) := by
  rw [Nat.testBit_or, Nat.testBit_and]

theorem setMode_const_run (m : si7210_mode_t) (temp0 : Nat) (dev : si7210 σ)
    (hmode : dev.mode = si7210_mode_t.CONST_CONVERSION) :
    ∃ a1 a2 a3 : RegAnswers,
      Frame dev (setMode m temp0 dev).2
      ∧ issued dev (setMode m temp0 dev).2
        = rmwTxns dev.devAddr8Bit 0xC9 a1 ((bufferAfter temp0 a1.data ||| 0x02) &&& 0xFE)
          ++ rmwTxns dev.devAddr8Bit 0xC8 a2 0
          ++ rmwTxns dev.devAddr8Bit 0xC4 a3 (bufferAfter 0 a3.data &&& 0xFC) := by
  obtain ⟨a1, r1, f1, l1⟩ :=
    rmw_run REG_0XC9 temp0 (fun t => (((t ||| (1 <<< 1)) % 256) &&& 0xFE) % 256)
      (by decide) dev
  generalize h1 : (rmw REG_0XC9 temp0
    (fun t => (((t ||| (1 <<< 1)) % 256) &&& 0xFE) % 256) dev).2 = d1 at f1 l1
  obtain ⟨a2, r2, f2, l2⟩ :=
    rmw_run REG_0XC8 ((((bufferAfter temp0 a1.data ||| (1 <<< 1)) % 256) &&& 0xFE) % 256)
      (fun _ => 0x0) (by decide) d1
  generalize h2 : (rmw REG_0XC8
    ((((bufferAfter temp0 a1.data ||| (1 <<< 1)) % 256) &&& 0xFE) % 256)
    (fun _ => 0x0) d1).2 = d2 at f2 l2
  obtain ⟨a3, r3, f3, l3⟩ :=
    rmw_run REG_0XC4 0 (fun t => (t &&& 0xFC) % 256) (by decide) d2
  have g2 : Frame dev d2 := frame_trans f1 f2
  have e : (setMode m temp0 dev).2
      = (rmw REG_0XC4 0 (fun t => (t &&& 0xFC) % 256) d2).2 := by
    rw [setMode_const _ _ _ hmode]
    simp only [bind_run, pure_run, r1, h1, r2, h2]
  refine ⟨a1, a2, a3, ?_, ?_⟩
  · rw [e]
    exact frame_trans g2 f3
  rw [e]
  apply issued_of_log
  rw [l3, l2, l1, f1.2.1, g2.2.1]
  simp only [List.append_assoc, REG_0XC9, REG_0XC8, REG_0XC4, Nat.zero_mod, Nat.mod_mod,
    and_byte_mod _ 0xFE (by decide), and_byte_mod _ 0xFC (by decide),
    mod_and_byte _ 0xFE (by decide)]
  rfl

/-- C12: on a device whose stored mode is continuous conversion,
`setMode(CONST_CONVERSION)` issues exactly three read-modify-write steps, in this order:
register `0xC9` is read and written with `(old | 0x02) & 0xFE`, register `0xC8` is read and
written with `0`, register `0xC4` is read and written with `old & 0xFC`, where `old` is the
content of the buffer after the read; no other register is written.  In `(old | 0x02) & 0xFE`
bit 1 is set, bit 0 is cleared and bits 2..7 are those of `old`; in `old & 0xFC` bits 0 and 1
are cleared and bits 2..7 are those of `old`. -/
theorem setMode_continuous (temp0 : Nat) (dev : si7210 σ)
    (hmode : dev.mode = si7210_mode_t.CONST_CONVERSION) :
    (∃ a1 a2 a3 : RegAnswers,
      issued dev (setMode si7210_mode_t.CONST_CONVERSION temp0 dev).2
        = rmwTxns dev.devAddr8Bit 0xC9 a1 ((bufferAfter temp0 a1.data ||| 0x02) &&& 0xFE)
          ++ rmwTxns dev.devAddr8Bit 0xC8 a2 0
          ++ rmwTxns dev.devAddr8Bit 0xC4 a3 (bufferAfter 0 a3.data &&& 0xFC))
    ∧ (∀ old : Nat,
        ((old ||| 0x02) &&& 0xFE).testBit 1 = true ∧ ((old ||| 0x02) &&& 0xFE).testBit 0 = false
        ∧ (∀ k, 2 ≤ k → k < 8 → ((old ||| 0x02) &&& 0xFE).testBit k = old.testBit k)
        ∧ (old &&& 0xFC).testBit 0 = false ∧ (old &&& 0xFC).testBit 1 = false
        ∧ (∀ k, 2 ≤ k → k < 8 → (old &&& 0xFC).testBit k = old.testBit k)) := by
  constructor
  · obtain ⟨a1, a2, a3, -, h⟩ :=
      setMode_const_run si7210_mode_t.CONST_CONVERSION temp0 dev hmode
    exact ⟨a1, a2, a3, h⟩
  · intro old
    refine ⟨?_, ?_, fun k h2 h8 => ?_, ?_, ?_, fun k h2 h8 => ?_⟩
    · rw [testBit_or_and]; generalize old.testBit 1 = b; revert b; decide
    · rw [testBit_or_and]; generalize old.testBit 0 = b; revert b; decide
    · rw [testBit_or_and]
      interval_cases k <;> (generalize Nat.testBit old _ = b; revert b; decide)
    · rw [Nat.testBit_and]; generalize old.testBit 0 = b; revert b; decide
    · rw [Nat.testBit_and]; generalize old.testBit 1 = b; revert b; decide
    · rw [Nat.testBit_and]
      interval_cases k <;> (generalize Nat.testBit old _ = b; revert b; decide)

/-- Witness for C12: on a scripted bus whose reads deliver `0x55`, `0x33` and `0x0F`, the
bytes written are `0x56` to `0xC9`, `0` to `0xC8` and `0x0C` to `0xC4`. -/
theorem setMode_continuous_witness :
    (setMode si7210_mode_t.CONST_CONVERSION 0
      (scriptDev (fun _ => 0)
        (fun n => if n = 1 then some 0x55 else if n = 4 then some 0x33 else some 0x0F)
        si7210_range_t.RANGE_20mT si7210_magnet_t.NONE)).2.i2c.log
      = [Txn.write 0x62 [0xC9] true 0, Txn.read 0x62 1 false 0 (some 0x55),
         Txn.write 0x62 [0xC9, 0x56] false 0,
         Txn.write 0x62 [0xC8] true 0, Txn.read 0x62 1 false 0 (some 0x33),
         Txn.write 0x62 [0xC8, 0] false 0,
         Txn.write 0x62 [0xC4] true 0, Txn.read 0x62 1 false 0 (some 0x0F),
         Txn.write 0x62 [0xC4, 0x0C] false 0]
    ∧ ∃ a1 a2 a3 : RegAnswers,
      issued (scriptDev (fun _ => 0)
          (fun n => if n = 1 then some 0x55 else if n = 4 then some 0x33 else some 0x0F)
          si7210_range_t.RANGE_20mT si7210_magnet_t.NONE)
        (setMode si7210_mode_t.CONST_CONVERSION 0
          (scriptDev (fun _ => 0)
            (fun n => if n = 1 then some 0x55 else if n = 4 then some 0x33 else some 0x0F)
            si7210_range_t.RANGE_20mT si7210_magnet_t.NONE)).2
        = rmwTxns 0x62 0xC9 a1 ((bufferAfter 0 a1.data ||| 0x02) &&& 0xFE)
          ++ rmwTxns 0x62 0xC8 a2 0
          ++ rmwTxns 0x62 0xC4 a3 (bufferAfter 0 a3.data &&& 0xFC) :=
  ⟨by decide,
    (setMode_continuous 0
      (scriptDev (fun _ => 0)
        (fun n => if n = 1 then some 0x55 else if n = 4 then some 0x33 else some 0x0F)
        si7210_range_t.RANGE_20mT si7210_magnet_t.NONE) rfl).1⟩

/-- C18: `sleep()` issues exactly two read-modify-write steps, in this order: register `0xC9`
is read and written with `old & 0xFE`, then register `0xC4` is read and written with
`(old & 0xF8) | 0x01`, where `old` is the content of the buffer after the read; it returns
true if and only if the second write was acknowledged.  In `old & 0xFE` bit 0 is cleared and
bits 1..7 are those of `old`; in `(old & 0xF8) | 0x01` bit 0 is set, bits 1 and 2 are cleared
and bits 3..7 are those of `old`. -/
theorem sleep_steps (temp0 : Nat) (dev : si7210 σ) :
    (∃ a1 a2 : RegAnswers,
      issued dev (sleep temp0 dev).2
        = rmwTxns dev.devAddr8Bit 0xC9 a1 (bufferAfter temp0 a1.data &&& 0xFE)
          ++ rmwTxns dev.devAddr8Bit 0xC4 a2
              ((bufferAfter (bufferAfter temp0 a1.data &&& 0xFE) a2.data &&& 0xF8) ||| 0x01)
      ∧ ((sleep temp0 dev).1 = true ↔ a2.stWrite = 0))
    ∧ (∀ old : Nat,
        (old &&& 0xFE).testBit 0 = false
        ∧ (∀ k, 1 ≤ k → k < 8 → (old &&& 0xFE).testBit k = old.testBit k)
        ∧ ((old &&& 0xF8) ||| 0x01).testBit 0 = true
        ∧ ((old &&& 0xF8) ||| 0x01).testBit 1 = false
        ∧ ((old &&& 0xF8) ||| 0x01).testBit 2 = false
        ∧ (∀ k, 3 ≤ k → k < 8 → ((old &&& 0xF8) ||| 0x01).testBit k = old.testBit k)) := by
  constructor
  · obtain ⟨a1, r1, f1, l1⟩ :=
      rmw_run REG_0XC9 temp0 (fun t => (t &&& 0xFE) % 256) (by decide) dev
    generalize h1 : (rmw REG_0XC9 temp0 (fun t => (t &&& 0xFE) % 256) dev).2 = d1 at f1 l1
    obtain ⟨a2, r2, f2, l2⟩ :=
      rmw_run REG_0XC4 ((bufferAfter temp0 a1.data &&& 0xFE) % 256)
        (fun t => ((t &&& 0xF8) ||| 0x01) % 256) (by decide) d1
    have e : sleep temp0 dev
        = (decide (a2.stWrite = 0),
            (rmw REG_0XC4 ((bufferAfter temp0 a1.data &&& 0xFE) % 256)
              (fun t => ((t &&& 0xF8) ||| 0x01) % 256) d1).2) := by
      rw [sleep_eq]
      simp only [bind_run, pure_run, r1, h1, r2]
    have hb : ∀ x : Nat, ((x &&& 0xF8) ||| 0x01) % 256 = (x &&& 0xF8) ||| 0x01 := by
      intro x
      apply Nat.mod_eq_of_lt
      have h8 : x &&& 0xF8 < 2 ^ 8 := lt_of_le_of_lt Nat.and_le_right (by decide)
      exact Nat.or_lt_two_pow h8 (by decide)
    refine ⟨a1, a2, ?_, ?_⟩
    · rw [e]
      apply issued_of_log
      rw [l2, l1, f1.2.1]
      simp only [List.append_assoc, REG_0XC9, REG_0XC4, Nat.mod_mod,
        and_byte_mod _ 0xFE (by decide), hb]
    · rw [e]
      simp
  · intro old
    refine ⟨?_, fun k h1 h8 => ?_, ?_, ?_, ?_, fun k h3 h8 => ?_⟩
    · rw [Nat.testBit_and]; generalize old.testBit 0 = b; revert b; decide
    · rw [Nat.testBit_and]
      interval_cases k <;> (generalize Nat.testBit old _ = b; revert b; decide)
    · rw [testBit_and_or]; generalize old.testBit 0 = b; revert b; decide
    · rw [testBit_and_or]; generalize old.testBit 1 = b; revert b; decide
    · rw [testBit_and_or]; generalize old.testBit 2 = b; revert b; decide
    · rw [testBit_and_or]
      interval_cases k <;> (generalize Nat.testBit old _ = b; revert b; decide)

theorem readRegister_regs (reg buf : Nat) (dev : si7210 RegFile) (hb : RegBacked dev) :
    (readRegister reg buf dev).1.2 = dev.i2c.state.regs (reg % 256) % 256
    ∧ (readRegister reg buf dev).2.i2c.state.regs = dev.i2c.state.regs
    ∧ RegBacked (readRegister reg buf dev).2
    ∧ (readRegister reg buf dev).2.mode = dev.mode := by
  simp only [readRegister, I2C.write, I2C.read, hb.1, hb.2, regWrite, regRead, RegBacked,
    and_self]

theorem writeRegister_regs (reg value : Nat) (dev : si7210 RegFile) (hb : RegBacked dev) :
    (writeRegister reg value dev).2.i2c.state.regs
      = (fun r => if r = reg % 256 then value % 256 else dev.i2c.state.regs r)
    ∧ RegBacked (writeRegister reg value dev).2
    ∧ (writeRegister reg value dev).2.mode = dev.mode := by
  simp only [writeRegister, I2C.write, hb.1, hb.2, regWrite, RegBacked, and_self]

theorem rmw_regs (reg buf : Nat) (f : Nat → Nat) (dev : si7210 RegFile) (hb : RegBacked dev) :
    (rmw reg buf f dev).2.i2c.state.regs
      = (fun r => if r = reg % 256 then f (dev.i2c.state.regs (reg % 256) % 256) % 256
          else dev.i2c.state.regs r)
    ∧ RegBacked (rmw reg buf f dev).2
    ∧ (rmw reg buf f dev).2.mode = dev.mode := by
  obtain ⟨h1, h2, h3, h4⟩ := readRegister_regs reg buf dev hb
  obtain ⟨k1, k2, k3⟩ := writeRegister_regs reg (f (readRegister reg buf dev).1.2)
    (readRegister reg buf dev).2 h3
  have e : (rmw reg buf f dev).2
      = (writeRegister reg (f (readRegister reg buf dev).1.2) (readRegister reg buf dev).2).2 := by
    simp only [rmw, bind_run, pure_run]
  rw [e]
  refine ⟨?_, k2, k3.trans h4⟩
  rw [k1, h1, h2]

theorem setMode_regs (m : si7210_mode_t) (temp0 : Nat) (dev : si7210 RegFile)
    (hb : RegBacked dev) (hmode : dev.mode = si7210_mode_t.CONST_CONVERSION) :
    (setMode m temp0 dev).2.i2c.state.regs
      = (fun r =>
          if r = 0xC4 then (dev.i2c.state.regs 0xC4 % 256 &&& 0xFC) % 256 % 256
          else if r = 0xC8 then 0
          else if r = 0xC9 then
            (((dev.i2c.state.regs 0xC9 % 256 ||| (1 <<< 1)) % 256) &&& 0xFE) % 256 % 256
          else dev.i2c.state.regs r)
    ∧ RegBacked (setMode m temp0 dev).2
    ∧ (setMode m temp0 dev).2.mode = dev.mode := by
  rw [setMode_const m temp0 dev hmode]
  simp only [bind_run, pure_run]
  obtain ⟨a1, a2, a3⟩ := rmw_regs REG_0XC9 temp0
    (fun t => (((t ||| (1 <<< 1)) % 256) &&& 0xFE) % 256) dev hb
  generalize hd1 : (rmw REG_0XC9 temp0
    (fun t => (((t ||| (1 <<< 1)) % 256) &&& 0xFE) % 256) dev) = p1 at a1 a2 a3 ⊢
  obtain ⟨b1, b2, b3⟩ := rmw_regs REG_0XC8 p1.1.2 (fun _ => 0x0) p1.2 a2
  generalize hd2 : (rmw REG_0XC8 p1.1.2 (fun _ => 0x0) p1.2) = p2 at b1 b2 b3 ⊢
  obtain ⟨c1, c2, c3⟩ := rmw_regs REG_0XC4 p2.1.2 (fun t => (t &&& 0xFC) % 256) p2.2 b2
  refine ⟨?_, c2, c3.trans (b3.trans a3)⟩
  rw [c1, b1, a1]
  funext r
  simp only [REG_0XC9, REG_0XC8, REG_0XC4]
  by_cases h4 : r = 0xC4
  · subst h4; simp
  · by_cases h8 : r = 0xC8
    · subst h8; simp
    · by_cases h9 : r = 0xC9
      · subst h9; simp
      · simp [h4, h8, h9]

theorem fast_idem (x : Nat) (hx : x < 256) :
    (((((((x ||| (1 <<< 1)) % 256) &&& 0xFE) % 256 % 256) % 256 ||| (1 <<< 1)) % 256) &&& 0xFE)
        % 256 % 256
      = (((x ||| (1 <<< 1)) % 256) &&& 0xFE) % 256 % 256 := by
  interval_cases x <;> rfl

theorem start_idem (x : Nat) (hx : x < 256) :
    (((x &&& 0xFC) % 256 % 256) % 256 &&& 0xFC) % 256 % 256 = (x &&& 0xFC) % 256 % 256 := by
  interval_cases x <;> rfl

/-- C14: over a register map in which a write stores the byte and a read returns the stored
byte, for every initial content of the registers (and every stored mode),
`setMode(CONST_CONVERSION)` called twice in succession leaves every register with the value
that one call leaves. -/
theorem setMode_idempotent (temp0 temp1 : Nat) (dev : si7210 RegFile) (hb : RegBacked dev) :
    ∀ r : Nat,
      (setMode si7210_mode_t.CONST_CONVERSION temp1
        (setMode si7210_mode_t.CONST_CONVERSION temp0 dev).2).2.i2c.state.regs r
      = (setMode si7210_mode_t.CONST_CONVERSION temp0 dev).2.i2c.state.regs r := by
  intro r
  cases hmode : dev.mode with
  | ONEBURST =>
      rw [setMode_oneburst _ temp0 dev hmode, setMode_oneburst _ temp1 dev hmode]
  | CONST_CONVERSION =>
      obtain ⟨h1, h2, h3⟩ := setMode_regs si7210_mode_t.CONST_CONVERSION temp0 dev hb hmode
      obtain ⟨k1, -, -⟩ := setMode_regs si7210_mode_t.CONST_CONVERSION temp1 _ h2
        (h3.trans hmode)
      rw [k1, h1]
      have m4 : dev.i2c.state.regs 0xC4 % 256 < 256 := Nat.mod_lt _ (by decide)
      have m9 : dev.i2c.state.regs 0xC9 % 256 < 256 := Nat.mod_lt _ (by decide)
      by_cases h4 : r = 0xC4
      · subst h4
        simp only [if_true]
        exact start_idem _ m4
      · by_cases h8 : r = 0xC8
        · subst h8; simp
        · by_cases h9 : r = 0xC9
          · subst h9
            simp only [if_true, if_false, show ¬ ((0xC9 : Nat) = 0xC4) by decide,
              show ¬ ((0xC9 : Nat) = 0xC8) by decide]
            exact fast_idem _ m9
          · simp [h4, h8, h9]

/-- Witness for C14: a register map whose registers all hold `0xFF`, on a device with stored
mode `CONST_CONVERSION`; one call leaves `0xFE` in `0xC9`, and so do two. -/
theorem setMode_idempotent_witness :
    (setMode si7210_mode_t.CONST_CONVERSION 0
      (setMode si7210_mode_t.CONST_CONVERSION 0
        (regDev (fun _ => 0xFF) si7210_mode_t.CONST_CONVERSION)).2).2.i2c.state.regs 0xC9
      = (setMode si7210_mode_t.CONST_CONVERSION 0
        (regDev (fun _ => 0xFF) si7210_mode_t.CONST_CONVERSION)).2.i2c.state.regs 0xC9
    ∧ (setMode si7210_mode_t.CONST_CONVERSION 0
        (regDev (fun _ => 0xFF) si7210_mode_t.CONST_CONVERSION)).2.i2c.state.regs 0xC9
      = 0xFE :=
  ⟨setMode_idempotent 0 0
    (regDev (fun _ => 0xFF) si7210_mode_t.CONST_CONVERSION) ⟨rfl, rfl⟩ 0xC9, by decide⟩

/-! ## Evaluations of the driver on scripted buses -/

/-- C13 (evaluation of the code): on the device that the constructor builds for mode
`CONST_CONVERSION` (the arguments of `main.cpp`, on a scripted bus that acknowledges),
`setMode(ONEBURST)` returns true, and it issues the nine transactions of continuous
conversion: the `switch` is on the stored mode, not on the argument. -/
theorem setMode_oneburst_on_continuous :
    (setMode si7210_mode_t.ONEBURST 0
      (si7210.new (scriptBus (fun _ => 0) (fun _ => some 0)) 0x31 si7210_range_t.RANGE_20mT
        si7210_magnet_t.NEODYMIUM si7210_mode_t.CONST_CONVERSION
        { filterType := si7210_filters_t.FIR, burstsize := 12 } 0 0)).1 = true
    ∧ (issued
        (si7210.new (scriptBus (fun _ => 0) (fun _ => some 0)) 0x31 si7210_range_t.RANGE_20mT
          si7210_magnet_t.NEODYMIUM si7210_mode_t.CONST_CONVERSION
          { filterType := si7210_filters_t.FIR, burstsize := 12 } 0 0)
        (setMode si7210_mode_t.ONEBURST 0
          (si7210.new (scriptBus (fun _ => 0) (fun _ => some 0)) 0x31
            si7210_range_t.RANGE_20mT si7210_magnet_t.NEODYMIUM
            si7210_mode_t.CONST_CONVERSION
            { filterType := si7210_filters_t.FIR, burstsize := 12 } 0 0)).2).length = 9 := by
  decide

/-- C15 (evaluation of the code): on a bus that acknowledges nothing and delivers no data,
`setMode(CONST_CONVERSION)` returns true although none of its three register writes (to
`0xC9`, `0xC8` and `0xC4`) was acknowledged. -/
theorem setMode_true_without_ack :
    (setMode si7210_mode_t.CONST_CONVERSION 0
      (scriptDev (fun _ => 1) (fun _ => none) si7210_range_t.RANGE_20mT
        si7210_magnet_t.NONE)).1 = true
    ∧ (setMode si7210_mode_t.CONST_CONVERSION 0
      (scriptDev (fun _ => 1) (fun _ => none) si7210_range_t.RANGE_20mT
        si7210_magnet_t.NONE)).2.i2c.log
      = [Txn.write 0x62 [0xC9] true 1, Txn.read 0x62 1 false 1 none,
         Txn.write 0x62 [0xC9, 0x02] false 1,
         Txn.write 0x62 [0xC8] true 1, Txn.read 0x62 1 false 1 none,
         Txn.write 0x62 [0xC8, 0] false 1,
         Txn.write 0x62 [0xC4] true 1, Txn.read 0x62 1 false 1 none,
         Txn.write 0x62 [0xC4, 0] false 1] := by
  decide

/-- C16 (evaluation of the code): `setMode(m)` neither stores its argument nor acts on it.
On a device whose stored mode is `CONST_CONVERSION`, after `setMode(ONEBURST)` the stored
mode is still `CONST_CONVERSION`, not `ONEBURST`, and the transactions issued are the nine of
continuous conversion, which are not those of the mode `ONEBURST` that was asked for. -/
theorem setMode_does_not_store_argument :
    (setMode si7210_mode_t.ONEBURST 0
        (scriptDev (fun _ => 0) (fun _ => some 0) si7210_range_t.RANGE_20mT
          si7210_magnet_t.NONE)).2.mode = si7210_mode_t.CONST_CONVERSION
    ∧ ¬ ((setMode si7210_mode_t.ONEBURST 0
        (scriptDev (fun _ => 0) (fun _ => some 0) si7210_range_t.RANGE_20mT
          si7210_magnet_t.NONE)).2.mode = si7210_mode_t.ONEBURST)
    ∧ (setMode si7210_mode_t.ONEBURST 0
        (scriptDev (fun _ => 0) (fun _ => some 0) si7210_range_t.RANGE_20mT
          si7210_magnet_t.NONE)).2.i2c.log
      = [Txn.write 0x62 [0xC9] true 0, Txn.read 0x62 1 false 0 (some 0),
         Txn.write 0x62 [0xC9, 0x02] false 0,
         Txn.write 0x62 [0xC8] true 0, Txn.read 0x62 1 false 0 (some 0),
         Txn.write 0x62 [0xC8, 0] false 0,
         Txn.write 0x62 [0xC4] true 0, Txn.read 0x62 1 false 0 (some 0),
         Txn.write 0x62 [0xC4, 0] false 0] := by
  decide

/-- The argument of `setMode` is dead: any two arguments give the same state transformer. -/
theorem setMode_argument_dead (m m' : si7210_mode_t) (temp0 : Nat) :
    (setMode m temp0 : StateM (si7210 σ) Bool) = setMode m' temp0 := rfl

/-- C17 (evaluation of the code): `wakeup()` issues one transaction, the wake write, and
nothing of `init()`, which on the same device issues forty transactions. -/
theorem wakeup_issues_only_the_wake_write :
    (wakeup 0xC0 (scriptDev (fun _ => 0) (fun _ => some 0) si7210_range_t.RANGE_20mT
        si7210_magnet_t.NEODYMIUM)).2.i2c.log = [Txn.write 0x62 [0xC0] false 0]
    ∧ (init 0 0 (scriptDev (fun _ => 0) (fun _ => some 0) si7210_range_t.RANGE_20mT
        si7210_magnet_t.NEODYMIUM)).2.i2c.log.length = 40 := by
  decide

/-- The transactions of `wakeup()` on any device and any bus: one write, of one byte. -/
theorem wakeup_issued (mem : Nat) (dev : si7210 σ) :
    ∃ st : Int, issued dev (wakeup mem dev).2
      = [Txn.write dev.devAddr8Bit [mem % 256] false st] :=
  ⟨_, issued_of_log rfl⟩

/-- C19 (evaluation of the code): on a bus that does not acknowledge the address phase (the
first transaction) and acknowledges the data phase, `readRegister` returns true. -/
theorem readRegister_true_on_address_nack :
    (readRegister REG_0XC0 0
      (scriptDev (fun n => if n = 0 then 1 else 0) (fun _ => some 0x14)
        si7210_range_t.RANGE_20mT si7210_magnet_t.NONE)).1 = (true, 0x14)
    ∧ (readRegister REG_0XC0 0
      (scriptDev (fun n => if n = 0 then 1 else 0) (fun _ => some 0x14)
        si7210_range_t.RANGE_20mT si7210_magnet_t.NONE)).2.i2c.log
      = [Txn.write 0x62 [0xC0] true 1, Txn.read 0x62 1 false 0 (some 0x14)] := by
  decide

/-! ## Diagnostics -/

theorem toUInt8_lt (x : Int) : toUInt8 x < 256 := by
  unfold toUInt8
  omega

theorem i2cMemDump_loop_run (suf : List si7210_register_t) :
    ∀ (pre : List si7210_register_t) (fuel : Nat) (faults : List OutOfRange) (pastAddr : Int)
      (pastData : Nat) (dev : si7210 σ), suf.length + 2 ≤ fuel →
      ∃ (answers : List ReadAnswers) (past : ReadAnswers),
        answers.length = suf.length
        ∧ (i2cMemDump_loop fuel pre.length
            { registers := pre ++ suf, outOfRange := faults } pastAddr pastData dev).1
          = some { registers := pre ++ dumpFill suf answers,
                   outOfRange := faults
                     ++ [{ index := pre.length + suf.length, size := pre.length + suf.length },
                         { index := pre.length + suf.length,
                           size := pre.length + suf.length }] }
        ∧ Frame dev (i2cMemDump_loop fuel pre.length
            { registers := pre ++ suf, outOfRange := faults } pastAddr pastData dev).2
        ∧ (i2cMemDump_loop fuel pre.length
            { registers := pre ++ suf, outOfRange := faults } pastAddr pastData dev).2.i2c.log
          = dev.i2c.log
            ++ (dumpTxns dev.devAddr8Bit suf answers
              ++ readTxns dev.devAddr8Bit (toUInt8 pastAddr) past) := by
  induction suf with
  | nil =>
      intro pre fuel faults pastAddr pastData dev hfuel
      obtain ⟨fuel, rfl⟩ : ∃ f, fuel = f + 2 := ⟨fuel - 2, by simp at hfuel; omega⟩
      obtain ⟨s1, s2, rd, -, -, -, hf, hlog⟩ :=
        readRegister_run (toUInt8 pastAddr) pastData dev
      rw [Nat.mod_eq_of_lt (toUInt8_lt _)] at hlog
      have hget : (pre ++ ([] : List si7210_register_t))[pre.length]? = none := by simp
      have hstep : i2cMemDump_loop (fuel + 2) pre.length
            { registers := pre ++ [], outOfRange := faults } pastAddr pastData dev
          = (some { registers := pre ++ [],
                    outOfRange := faults
                      ++ [{ index := pre.length, size := (pre ++ []).length },
                          { index := pre.length, size := (pre ++ []).length }] },
              (readRegister (toUInt8 pastAddr) pastData dev).2) := by
        simp only [i2cMemDump_loop, hget, bind_run, pure_run, List.length_append,
          List.length_nil, Nat.add_zero, le_refl, if_true]
        rw [if_neg (by omega)]
        rfl
      refine ⟨[], ⟨s1, s2, rd⟩, rfl, ?_, ?_, ?_⟩
      · rw [hstep]
        simp [dumpFill]
      · rw [hstep]
        exact hf
      · rw [hstep]
        simp only [hlog, dumpTxns, readTxns, List.nil_append]
  | cons x rest ih =>
      intro pre fuel faults pastAddr pastData dev hfuel
      have hfuel' : rest.length + 3 ≤ fuel := by simpa using hfuel
      obtain ⟨fuel, rfl⟩ : ∃ f, fuel = f + 1 := ⟨fuel - 1, by omega⟩
      obtain ⟨s1, s2, rd, -, -, hres, hf, hlog⟩ := readRegister_run (toUInt8 x.addr) x.data dev
      rw [Nat.mod_eq_of_lt (toUInt8_lt _)] at hlog
      have hget : (pre ++ x :: rest)[pre.length]? = some x := by
        rw [List.getElem?_append_right (le_refl _), Nat.sub_self]
        simp
      have hset : (pre ++ x :: rest).set pre.length { x with data := bufferAfter x.data rd }
          = (pre ++ [{ x with data := bufferAfter x.data rd }]) ++ rest := by
        simp
      have hlen : (pre ++ [({ x with data := bufferAfter x.data rd } : si7210_register_t)]).length
          = pre.length + 1 := by simp
      have hstep : i2cMemDump_loop (fuel + 1) pre.length
            { registers := pre ++ x :: rest, outOfRange := faults } pastAddr pastData dev
          = i2cMemDump_loop fuel
              (pre ++ [({ x with data := bufferAfter x.data rd } : si7210_register_t)]).length
              { registers := (pre ++ [{ x with data := bufferAfter x.data rd }]) ++ rest,
                outOfRange := faults } pastAddr pastData
              (readRegister (toUInt8 x.addr) x.data dev).2 := by
        rw [hlen, ← hset]
        have hle : pre.length ≤ (pre ++ x :: rest).length := by simp
        simp only [i2cMemDump_loop, hget, bind_run, hres, hle, if_true]
      obtain ⟨answers, past, hal, hr, hfr, hlg⟩ :=
        ih (pre ++ [{ x with data := bufferAfter x.data rd }]) fuel faults pastAddr pastData
          (readRegister (toUInt8 x.addr) x.data dev).2
          (by omega)
      refine ⟨⟨s1, s2, rd⟩ :: answers, past, by simp [hal], ?_, ?_, ?_⟩
      · have e1 : (pre ++ [({ x with data := bufferAfter x.data rd } : si7210_register_t)]).length
            + rest.length = pre.length + (x :: rest).length := by
          simp only [List.length_append, List.length_cons, List.length_nil]
          omega
        rw [hstep, hr, e1]
        simp only [dumpFill, List.append_assoc, List.singleton_append]
      · rw [hstep]
        exact frame_trans hf hfr
      · rw [hstep, hlg, hlog, hf.2.1]
        simp only [dumpTxns, readTxns, List.append_assoc, List.cons_append, List.nil_append]

theorem dumpFill_getElem? (regs : List si7210_register_t) :
    ∀ (answers : List ReadAnswers) (k : Nat) (reg : si7210_register_t) (ans : ReadAnswers),
      regs[k]? = some reg → answers[k]? = some ans →
      (dumpFill regs answers)[k]? = some { reg with data := bufferAfter reg.data ans.data } := by
  induction regs with
  | nil => intro answers k reg ans h; simp at h
  | cons r rest ih =>
      intro answers k reg ans hr ha
      cases answers with
      | nil => simp at ha
      | cons a as =>
          cases k with
          | zero =>
              simp only [List.getElem?_cons_zero, Option.some.injEq] at hr ha
              subst hr; subst ha
              simp [dumpFill]
          | succ k =>
              simp only [List.getElem?_cons_succ] at hr ha
              simpa [dumpFill] using ih as k reg ans hr ha

theorem dumpTxns_getElem? (a : Nat) (tail : List Txn) (regs : List si7210_register_t) :
    ∀ (answers : List ReadAnswers) (k : Nat) (reg : si7210_register_t) (ans : ReadAnswers),
      regs[k]? = some reg → answers[k]? = some ans →
      (dumpTxns a regs answers ++ tail)[2 * k]?
          = some (Txn.write a [toUInt8 reg.addr] true ans.stSel)
      ∧ (dumpTxns a regs answers ++ tail)[2 * k + 1]?
          = some (Txn.read a 1 false ans.stRead ans.data) := by
  induction regs with
  | nil => intro answers k reg ans h; simp at h
  | cons r rest ih =>
      intro answers k reg ans hr ha
      cases answers with
      | nil => simp at ha
      | cons b bs =>
          cases k with
          | zero =>
              simp only [List.getElem?_cons_zero, Option.some.injEq] at hr ha
              subst hr; subst ha
              simp [dumpTxns, readTxns]
          | succ k =>
              simp only [List.getElem?_cons_succ] at hr ha
              obtain ⟨h1, h2⟩ := ih bs k reg ans hr ha
              have e1 : 2 * (k + 1) = (2 * k) + 1 + 1 := by omega
              rw [e1]
              simp only [dumpTxns, readTxns, List.cons_append, List.nil_append,
                List.getElem?_cons_succ]
              exact ⟨h1, h2⟩

set_option maxRecDepth 8000 in
theorem i2cMemDump_eq_loop (pastAddr : Int) (pastData : Nat) (dev : si7210 σ) :
    i2cMemDump pastAddr pastData dev
      = i2cMemDump_loop 23 0
          { registers := dumpAddrs.map (fun a => { addr := a, data := 0 }), outOfRange := [] }
          pastAddr pastData dev := rfl

theorem i2cMemDump_run (pastAddr : Int) (pastData : Nat) (dev : si7210 σ) :
    ∃ (answers : List ReadAnswers) (past : ReadAnswers),
      answers.length = 21
      ∧ (i2cMemDump pastAddr pastData dev).1
        = some { registers := dumpFill (dumpAddrs.map (fun a => { addr := a, data := 0 })) answers,
                 outOfRange := [{ index := 21, size := 21 }, { index := 21, size := 21 }] }
      ∧ issued dev (i2cMemDump pastAddr pastData dev).2
        = dumpTxns dev.devAddr8Bit (dumpAddrs.map (fun a => { addr := a, data := 0 })) answers
          ++ readTxns dev.devAddr8Bit (toUInt8 pastAddr) past := by
  obtain ⟨answers, past, hl, hr, -, hlog⟩ :=
    i2cMemDump_loop_run (dumpAddrs.map (fun a => ({ addr := a, data := 0 } : si7210_register_t)))
      [] 23 [] pastAddr pastData dev (by decide)
  have h21 : (dumpAddrs.map (fun a => ({ addr := a, data := 0 } : si7210_register_t))).length
      = 21 := rfl
  simp only [List.nil_append, List.length_nil, Nat.zero_add, h21] at hl hr hlog
  refine ⟨answers, past, hl, ?_, ?_⟩
  · rw [i2cMemDump_eq_loop]
    exact hr
  · rw [i2cMemDump_eq_loop]
    exact issued_of_log hlog

/-- C20: on every device and every bus, `i2cMemDump` returns a vector of exactly 21 entries
whose addresses are, in order, `0xC0, 0xC1, ..., 0xD0` (17 consecutive addresses) followed by
`0xE1, 0xE2, 0xE3, 0xE4`; for every index `k` in `0..20` the bus transactions `2k` and
`2k + 1` of the call are the read of the register at the address of entry `k`, and the data
of entry `k` is the content of its (zero-initialised) buffer after that read, which is the
byte read whenever the bus delivers one.  The call ends with a 22nd read, the one at index
`21`, whose byte is stored outside the returned vector. -/
theorem i2cMemDump_returns_21_entries (pastAddr : Int) (pastData : Nat) (dev : si7210 σ) :
    ∃ (d : Dump) (answers : List ReadAnswers) (past : ReadAnswers),
      (i2cMemDump pastAddr pastData dev).1 = some d
      ∧ d.registers.length = 21
      ∧ d.registers.map (fun reg => reg.addr) = dumpAddrs
      ∧ dumpAddrs = (List.range' 0xC0 17 ++ List.range' 0xE1 4).map Int.ofNat
      ∧ (∀ k, k < 21 →
          ∃ (addr : Int) (ans : ReadAnswers),
            dumpAddrs[k]? = some addr ∧ answers[k]? = some ans
            ∧ d.registers[k]? = some { addr := addr, data := bufferAfter 0 ans.data }
            ∧ (issued dev (i2cMemDump pastAddr pastData dev).2)[2 * k]?
                = some (Txn.write dev.devAddr8Bit [toUInt8 addr] true ans.stSel)
            ∧ (issued dev (i2cMemDump pastAddr pastData dev).2)[2 * k + 1]?
                = some (Txn.read dev.devAddr8Bit 1 false ans.stRead ans.data))
      ∧ issued dev (i2cMemDump pastAddr pastData dev).2
          = dumpTxns dev.devAddr8Bit (dumpAddrs.map (fun a => { addr := a, data := 0 })) answers
            ++ readTxns dev.devAddr8Bit (toUInt8 pastAddr) past := by
  obtain ⟨answers, past, hl, hr, hlog⟩ := i2cMemDump_run pastAddr pastData dev
  have hper : ∀ k, k < 21 → ∃ (addr : Int) (ans : ReadAnswers),
      dumpAddrs[k]? = some addr ∧ answers[k]? = some ans
      ∧ (dumpAddrs.map (fun a => ({ addr := a, data := 0 } : si7210_register_t)))[k]?
          = some { addr := addr, data := 0 } := by
    intro k hk
    have hk1 : k < dumpAddrs.length := hk
    have hk2 : k < answers.length := by rw [hl]; exact hk
    refine ⟨dumpAddrs[k], answers[k], List.getElem?_eq_getElem hk1,
      List.getElem?_eq_getElem hk2, ?_⟩
    rw [List.getElem?_map, List.getElem?_eq_getElem hk1]
    rfl
  have hlenFill : ∀ (regs : List si7210_register_t) (as : List ReadAnswers),
      as.length = regs.length →
      (dumpFill regs as).length = regs.length
      ∧ (dumpFill regs as).map (fun reg => reg.addr) = regs.map (fun reg => reg.addr) := by
    intro regs
    induction regs with
    | nil => intro as _; cases as <;> simp [dumpFill]
    | cons r rest ih =>
        intro as h
        cases as with
        | nil => simp at h
        | cons a as =>
            have h' : as.length = rest.length := by simpa using h
            obtain ⟨i1, i2⟩ := ih as h'
            simp [dumpFill, i1, i2]
  obtain ⟨hlen, hmap⟩ := hlenFill
    (dumpAddrs.map (fun a => ({ addr := a, data := 0 } : si7210_register_t))) answers
    (by rw [hl]; rfl)
  refine ⟨_, answers, past, hr, ?_, ?_, by decide, ?_, hlog⟩
  · rw [hlen]; rfl
  · rw [hmap]
    simp [List.map_map, Function.comp_def]
  · intro k hk
    obtain ⟨addr, ans, h1, h2, h3⟩ := hper k hk
    obtain ⟨t1, t2⟩ := dumpTxns_getElem? dev.devAddr8Bit
      (readTxns dev.devAddr8Bit (toUInt8 pastAddr) past) _ answers k _ ans h3 h2
    refine ⟨addr, ans, h1, h2, dumpFill_getElem? _ answers k _ ans h3 h2, ?_, ?_⟩
    · rw [hlog]; exact t1
    · rw [hlog]; exact t2

/-- C21 (evaluation of the code): on every device and every bus, the 21 address-setting
statements of `i2cMemDump` are within bounds (they produce the 21-element vector of
`dumpAddrs` and record no out-of-range access), but the read loop, entered with that vector,
makes the element accesses `registers[21].addr` and `registers[21].data` on the vector of
size 21: the index `21` is not `<= 20`. -/
theorem i2cMemDump_index_past_end (pastAddr : Int) (pastData : Nat) (dev : si7210 σ) :
    i2cMemDump pastAddr pastData dev
      = i2cMemDump_loop 23 0
          { registers := dumpAddrs.map (fun a => { addr := a, data := 0 }), outOfRange := [] }
          pastAddr pastData dev
    ∧ (dumpAddrs.map (fun a => ({ addr := a, data := 0 } : si7210_register_t))).length = 21
    ∧ ∃ (registers : List si7210_register_t) (index size : Nat),
        (i2cMemDump_loop 23 0
          { registers := dumpAddrs.map (fun a => { addr := a, data := 0 }), outOfRange := [] }
          pastAddr pastData dev).1
          = some { registers := registers,
                   outOfRange := [{ index := index, size := size },
                                  { index := index, size := size }] }
        ∧ size = 21 ∧ index = 21 ∧ ¬ index ≤ 20 := by
  obtain ⟨answers, past, -, hr, -⟩ := i2cMemDump_run pastAddr pastData dev
  rw [i2cMemDump_eq_loop] at hr
  exact ⟨i2cMemDump_eq_loop pastAddr pastData dev, rfl, _, 21, 21, hr, rfl, rfl, by decide⟩

/-! ## Field strength: bounds and monotonicity -/

theorem rawSignal_bounds (MSB LSB : Nat) (hL : LSB < 256) :
    -16384 ≤ rawSignal MSB LSB ∧ rawSignal MSB LSB ≤ 16383 := by
  have hx : MSB &&& 0x7F ≤ 0x7F := Nat.and_le_right
  unfold rawSignal
  generalize MSB &&& 0x7F = x at hx ⊢
  omega

theorem getFieldStrength_unwrapped (dev dev1 dev2 : si7210 σ) (m0 l0 MSB LSB : Nat)
    (ok1 ok2 : Bool)
    (hm : readRegister REG_DSPSIGM m0 dev = ((ok1, MSB), dev1))
    (hl : readRegister REG_DSPSIGL l0 dev1 = ((ok2, LSB), dev2))
    (hL : LSB < 256) :
    (getFieldStrength m0 l0 dev).1
      = match dev.range with
        | si7210_range_t.RANGE_20mT => Int.tdiv (rawSignal MSB LSB) 4 + rawSignal MSB LSB
        | si7210_range_t.RANGE_200mT =>
            rawSignal MSB LSB * 12 + Int.tdiv (rawSignal MSB LSB) 2 := by
  rw [getFieldStrength_eq dev dev1 dev2 m0 l0 MSB LSB ok1 ok2 hm hl]
  simp only [rawValue MSB LSB hL]
  obtain ⟨hlo, hhi⟩ := rawSignal_bounds MSB LSB hL
  change _ = match dev.range with
    | si7210_range_t.RANGE_20mT => Int.tdiv (rawSignal MSB LSB) 4 + rawSignal MSB LSB
    | si7210_range_t.RANGE_200mT => rawSignal MSB LSB * 12 + Int.tdiv (rawSignal MSB LSB) 2
  have e : 256 * ((MSB &&& 0x7F : Nat) : Int) + (LSB : Int) - 16384 = rawSignal MSB LSB := rfl
  rw [e]
  generalize rawSignal MSB LSB = Raw at hlo hhi ⊢
  have h4 := tdiv_pos_cases Raw
  have h2 := tdiv_two_cases Raw
  generalize Int.tdiv Raw 4 = q4 at h4 ⊢
  generalize Int.tdiv Raw 2 = q2 at h2 ⊢
  cases dev.range
  · show wrapInt32 (wrapInt32 q4 + Raw) = q4 + Raw
    unfold wrapInt32; omega
  · show wrapInt32 (wrapInt32 (Raw * 12) + wrapInt32 q2) = Raw * 12 + q2
    unfold wrapInt32; omega

/-- C22: when the two signal registers yield the bytes `MSB` and `LSB`, `Raw` lies in
`[-16384, 16383]`; at 20 mT the result of `getFieldStrength` is `Raw / 4 + Raw` and lies in
`[-20480, 20478]`, at 200 mT it is `Raw * 12 + Raw / 2` and lies in `[-204800, 204787]`;
`Raw`, the quotients, the product and the sums all fit a signed 32-bit integer (the result is
the expression without any wrap-around); the lower extremes are attained at
`MSB & 0x7F = 0x00`, `LSB = 0x00` and the upper ones at `MSB & 0x7F = 0x7F`, `LSB = 0xFF`. -/
theorem getFieldStrength_bounds (dev dev1 dev2 : si7210 σ) (m0 l0 MSB LSB : Nat)
    (ok1 ok2 : Bool)
    (hm : readRegister REG_DSPSIGM m0 dev = ((ok1, MSB), dev1))
    (hl : readRegister REG_DSPSIGL l0 dev1 = ((ok2, LSB), dev2))
    (hL : LSB < 256) :
    (-16384 ≤ rawSignal MSB LSB ∧ rawSignal MSB LSB ≤ 16383 ∧ FitsInt32 (rawSignal MSB LSB))
    ∧ (dev.range = si7210_range_t.RANGE_20mT →
        (getFieldStrength m0 l0 dev).1 = Int.tdiv (rawSignal MSB LSB) 4 + rawSignal MSB LSB
        ∧ -20480 ≤ (getFieldStrength m0 l0 dev).1 ∧ (getFieldStrength m0 l0 dev).1 ≤ 20478
        ∧ FitsInt32 (Int.tdiv (rawSignal MSB LSB) 4)
        ∧ FitsInt32 (Int.tdiv (rawSignal MSB LSB) 4 + rawSignal MSB LSB)
        ∧ (MSB &&& 0x7F = 0x00 → LSB = 0x00 → (getFieldStrength m0 l0 dev).1 = -20480)
        ∧ (MSB &&& 0x7F = 0x7F → LSB = 0xFF → (getFieldStrength m0 l0 dev).1 = 20478))
    ∧ (dev.range = si7210_range_t.RANGE_200mT →
        (getFieldStrength m0 l0 dev).1
          = rawSignal MSB LSB * 12 + Int.tdiv (rawSignal MSB LSB) 2
        ∧ -204800 ≤ (getFieldStrength m0 l0 dev).1 ∧ (getFieldStrength m0 l0 dev).1 ≤ 204787
        ∧ FitsInt32 (rawSignal MSB LSB * 12)
        ∧ FitsInt32 (Int.tdiv (rawSignal MSB LSB) 2)
        ∧ FitsInt32 (rawSignal MSB LSB * 12 + Int.tdiv (rawSignal MSB LSB) 2)
        ∧ (MSB &&& 0x7F = 0x00 → LSB = 0x00 → (getFieldStrength m0 l0 dev).1 = -204800)
        ∧ (MSB &&& 0x7F = 0x7F → LSB = 0xFF → (getFieldStrength m0 l0 dev).1 = 204787)) := by
  have hval := getFieldStrength_unwrapped dev dev1 dev2 m0 l0 MSB LSB ok1 ok2 hm hl hL
  obtain ⟨hlo, hhi⟩ := rawSignal_bounds MSB LSB hL
  have hraw : rawSignal MSB LSB = 256 * ((MSB &&& 0x7F : Nat) : Int) + (LSB : Int) - 16384 :=
    rfl
  generalize (getFieldStrength m0 l0 dev).1 = res at hval ⊢
  generalize rawSignal MSB LSB = Raw at hval hlo hhi hraw ⊢
  have h4 := tdiv_pos_cases Raw
  have h2 := tdiv_two_cases Raw
  generalize Int.tdiv Raw 4 = q4 at h4 hval ⊢
  generalize Int.tdiv Raw 2 = q2 at h2 hval ⊢
  unfold FitsInt32
  refine ⟨⟨hlo, hhi, by omega, by omega⟩, fun hr => ?_, fun hr => ?_⟩
  · rw [hr] at hval
    simp only at hval
    subst hval
    refine ⟨rfl, by omega, by omega, ⟨by omega, by omega⟩, ⟨by omega, by omega⟩, ?_, ?_⟩
    · intro h1 h0
      rw [h1, h0] at hraw
      simp only [Nat.cast_zero] at hraw
      omega
    · intro h1 h0
      rw [h1, h0] at hraw
      simp only [Nat.cast_ofNat] at hraw
      omega
  · rw [hr] at hval
    simp only at hval
    subst hval
    refine ⟨rfl, by omega, by omega, ⟨by omega, by omega⟩, ⟨by omega, by omega⟩,
      ⟨by omega, by omega⟩, ?_, ?_⟩
    · intro h1 h0
      rw [h1, h0] at hraw
      simp only [Nat.cast_zero] at hraw
      omega
    · intro h1 h0
      rw [h1, h0] at hraw
      simp only [Nat.cast_ofNat] at hraw
      omega

/-- Witness for C22: the bytes `0x80`, `0x00` (masked `0x00`) at 20 mT give the lower
extreme `-20480`, and the bytes `0xFF`, `0xFF` (masked `0x7F`) at 200 mT give the upper
extreme `204787`. -/
theorem getFieldStrength_bounds_witness :
    (getFieldStrength 0 0 (scriptDev (fun _ => 0)
        (fun n => if n = 1 then some 0x80 else some 0x00)
        si7210_range_t.RANGE_20mT si7210_magnet_t.NONE)).1 = -20480
    ∧ (getFieldStrength 0 0 (scriptDev (fun _ => 0)
        (fun n => if n = 1 then some 0xFF else some 0xFF)
        si7210_range_t.RANGE_200mT si7210_magnet_t.NONE)).1 = 204787 :=
  ⟨((getFieldStrength_bounds
      (scriptDev (fun _ => 0) (fun n => if n = 1 then some 0x80 else some 0x00)
        si7210_range_t.RANGE_20mT si7210_magnet_t.NONE) _ _ 0 0 0x80 0x00 _ _ rfl rfl
      (by decide)).2.1 rfl).2.2.2.2.2.1 (by decide) rfl,
    ((getFieldStrength_bounds
      (scriptDev (fun _ => 0) (fun n => if n = 1 then some 0xFF else some 0xFF)
        si7210_range_t.RANGE_200mT si7210_magnet_t.NONE) _ _ 0 0 0xFF 0xFF _ _ rfl rfl
      (by decide)).2.2 rfl).2.2.2.2.2.2.2 (by decide) rfl⟩

/-- C23: for two devices with the same range, if the 15-bit measurement
`256 * (MSB & 0x7F) + LSB` of the first is smaller than that of the second, then
`getFieldStrength` returns a strictly smaller value on the first; hence equal results come
from equal 15-bit measurements. -/
theorem getFieldStrength_strictMono {τ : Type} (dev dev1 dev2 : si7210 σ)
    (dev' dev1' dev2' : si7210 τ)
    (m0 l0 m0' l0' MSB LSB MSB' LSB' : Nat) (ok1 ok2 ok1' ok2' : Bool)
    (hrange : dev'.range = dev.range)
    (hm : readRegister REG_DSPSIGM m0 dev = ((ok1, MSB), dev1))
    (hl : readRegister REG_DSPSIGL l0 dev1 = ((ok2, LSB), dev2))
    (hm' : readRegister REG_DSPSIGM m0' dev' = ((ok1', MSB'), dev1'))
    (hl' : readRegister REG_DSPSIGL l0' dev1' = ((ok2', LSB'), dev2'))
    (hL : LSB < 256) (hL' : LSB' < 256) :
    (measured15 MSB LSB < measured15 MSB' LSB' →
      (getFieldStrength m0 l0 dev).1 < (getFieldStrength m0' l0' dev').1)
    ∧ ((getFieldStrength m0 l0 dev).1 = (getFieldStrength m0' l0' dev').1 →
      measured15 MSB LSB = measured15 MSB' LSB') := by
  have hval := getFieldStrength_unwrapped dev dev1 dev2 m0 l0 MSB LSB ok1 ok2 hm hl hL
  have hval' :=
    getFieldStrength_unwrapped dev' dev1' dev2' m0' l0' MSB' LSB' ok1' ok2' hm' hl' hL'
  rw [hrange] at hval'
  have hraw : rawSignal MSB LSB = (measured15 MSB LSB : Int) - 16384 := by
    simp only [rawSignal, measured15]; push_cast; ring
  have hraw' : rawSignal MSB' LSB' = (measured15 MSB' LSB' : Int) - 16384 := by
    simp only [rawSignal, measured15]; push_cast; ring
  generalize (getFieldStrength m0 l0 dev).1 = res at hval ⊢
  generalize (getFieldStrength m0' l0' dev').1 = res' at hval' ⊢
  generalize measured15 MSB LSB = v at hraw ⊢
  generalize measured15 MSB' LSB' = v' at hraw' ⊢
  generalize rawSignal MSB LSB = Raw at hval hraw
  generalize rawSignal MSB' LSB' = Raw' at hval' hraw'
  have h4 := tdiv_pos_cases Raw
  have h2 := tdiv_two_cases Raw
  have h4' := tdiv_pos_cases Raw'
  have h2' := tdiv_two_cases Raw'
  generalize Int.tdiv Raw 4 = q4 at h4 hval
  generalize Int.tdiv Raw 2 = q2 at h2 hval
  generalize Int.tdiv Raw' 4 = q4' at h4' hval'
  generalize Int.tdiv Raw' 2 = q2' at h2' hval'
  cases hr : dev.range <;> rw [hr] at hval hval' <;> simp only at hval hval' <;>
    subst hval <;> subst hval' <;> constructor <;> intro h <;> omega

/-- Witness for C23: at 20 mT the bytes `(0x3F, 0xFF)` (measurement `16383`) give `-1` and
the bytes `(0x40, 0x00)` (measurement `16384`) give `0`. -/
theorem getFieldStrength_strictMono_witness :
    (getFieldStrength 0 0 (scriptDev (fun _ => 0)
        (fun n => if n = 1 then some 0x3F else some 0xFF)
        si7210_range_t.RANGE_20mT si7210_magnet_t.NONE)).1
      < (getFieldStrength 0 0 (scriptDev (fun _ => 0)
        (fun n => if n = 1 then some 0x40 else some 0x00)
        si7210_range_t.RANGE_20mT si7210_magnet_t.NONE)).1 :=
  (getFieldStrength_strictMono
    (scriptDev (fun _ => 0) (fun n => if n = 1 then some 0x3F else some 0xFF)
      si7210_range_t.RANGE_20mT si7210_magnet_t.NONE) _ _
    (scriptDev (fun _ => 0) (fun n => if n = 1 then some 0x40 else some 0x00)
      si7210_range_t.RANGE_20mT si7210_magnet_t.NONE) _ _
    0 0 0 0 0x3F 0xFF 0x40 0x00 _ _ _ _ rfl rfl rfl rfl rfl (by decide) (by decide)).1
    (by decide)

/-! ## Identity checks taken together -/

theorem checkGood_value (dev dev1 : si7210 σ) (temp0 b : Nat) (ok : Bool)
    (h : readRegister REG_0XC0 temp0 dev = ((ok, b), dev1)) :
    (checkGood temp0 dev).1 = decide (b = 0x14) := by
  simp only [checkGood, bind_run, h]
  by_cases hb : b = 0x14
  · simp only [hb, if_true, pure_run, decide_True]
  · simp only [hb, if_false, pure_run, decide_False]

theorem getChipId_value (dev dev1 : si7210 σ) (temp0 b : Nat) (ok : Bool)
    (h : readRegister REG_0XC0 temp0 dev = ((ok, b), dev1)) :
    (getChipId temp0 dev).1 = (b >>> 4) % 256 := by
  simp only [getChipId, bind_run, pure_run, h]

/-- C24: when the identity register yields the same byte `b` to the three methods,
`checkGood` returns true if and only if `getChipId` returns `0x1` and `getRevId` returns
`0x4`. -/
theorem identity_checks_agree (devG devG1 devC devC1 devR devR1 : si7210 σ)
    (tG tC tR b : Nat) (okG okC okR : Bool)
    (hG : readRegister REG_0XC0 tG devG = ((okG, b), devG1))
    (hC : readRegister REG_0XC0 tC devC = ((okC, b), devC1))
    (hR : readRegister REG_0XC0 tR devR = ((okR, b), devR1))
    (hb : b < 256) :
    (checkGood tG devG).1 = true ↔
      ((getChipId tC devC).1 = 0x1 ∧ (getRevId tR devR).1 = 0x4) := by
  rw [checkGood_value devG devG1 tG b okG hG, getChipId_value devC devC1 tC b okC hC,
    getRevId_eq devR devR1 tR b okR hR]
  interval_cases b <;> decide

/-- Witness for C24: on the identity byte `0x14` all three methods agree. -/
theorem identity_checks_agree_witness :
    (checkGood 0 (scriptDev (fun _ => 0) (fun _ => some 0x14) si7210_range_t.RANGE_20mT
      si7210_magnet_t.NONE)).1 = true ↔
      ((getChipId 0 (scriptDev (fun _ => 0) (fun _ => some 0x14) si7210_range_t.RANGE_20mT
        si7210_magnet_t.NONE)).1 = 0x1
      ∧ (getRevId 0 (scriptDev (fun _ => 0) (fun _ => some 0x14) si7210_range_t.RANGE_20mT
        si7210_magnet_t.NONE)).1 = 0x4) :=
  identity_checks_agree
    (scriptDev (fun _ => 0) (fun _ => some 0x14) si7210_range_t.RANGE_20mT
      si7210_magnet_t.NONE) _
    (scriptDev (fun _ => 0) (fun _ => some 0x14) si7210_range_t.RANGE_20mT
      si7210_magnet_t.NONE) _
    (scriptDev (fun _ => 0) (fun _ => some 0x14) si7210_range_t.RANGE_20mT
      si7210_magnet_t.NONE) _
    0 0 0 0x14 _ _ _ rfl rfl rfl (by decide)

/-! ## Decoding the filter register -/

theorem filterRegisterByte_lt (f : Filter) : filterRegisterByte f < 256 := by
  unfold filterRegisterByte
  cases f.filterType <;> simp only
  · split
    · decide
    · exact Nat.mod_lt _ (by decide)
  · split
    · decide
    · exact Nat.mod_lt _ (by decide)
  · decide

theorem setFilter_issued (f : Filter) (dev : si7210 σ) :
    ∃ st : Int,
      issued dev (setFilter f dev).2
        = [Txn.write dev.devAddr8Bit [0xCD, filterRegisterByte f] false st] := by
  have hw : ∀ v, v < 256 → ∃ st : Int, issued dev (writeRegister REG_0XCD v dev).2
      = [Txn.write dev.devAddr8Bit [0xCD, v] false st] := by
    intro v hv
    obtain ⟨st, -, -, -, hlog⟩ := writeRegister_run REG_0XCD v dev
    refine ⟨st, ?_⟩
    rw [issued_of_log hlog, Nat.mod_eq_of_lt hv]
    rfl
  have hlt := filterRegisterByte_lt f
  unfold filterRegisterByte at hlt ⊢
  cases ht : f.filterType <;> rw [ht] at hlt <;> simp only at hlt ⊢
  · by_cases hb : f.burstsize > 12
    · rw [setFilter_fir_reject f ht hb dev, if_pos hb]
      exact hw 0 (by decide)
    · rw [setFilter_fir_accept f ht hb dev, if_neg hb]
      rw [if_neg hb] at hlt
      exact hw _ hlt
  · by_cases hb : f.burstsize > 12
    · rw [setFilter_iir_reject f ht hb dev, if_pos hb]
      exact hw 0 (by decide)
    · rw [setFilter_iir_accept f ht hb dev, if_neg hb]
      rw [if_neg hb] at hlt
      exact hw _ hlt
  · rw [setFilter_none f ht dev]
    exact hw 0 (by decide)

theorem filterRegisterByte_accepted (f : Filter) (hf : Accepted f) :
    (f.filterType = si7210_filters_t.FIR →
      filterRegisterByte f = (f.burstsize.toNat <<< 1) ||| 0)
    ∧ (f.filterType = si7210_filters_t.IIR →
      filterRegisterByte f = (f.burstsize.toNat <<< 1) ||| 1) := by
  obtain ⟨-, h0, h12⟩ := hf
  have hb : ¬ f.burstsize > 12 := by omega
  constructor <;> intro ht <;> simp only [filterRegisterByte, ht, if_neg hb]
  · exact filterByte_eq DF_FIR_MASK _ (by decide) h0 h12
  · exact filterByte_eq DF_IIR_MASK _ (by decide) h0 h12

theorem filterRegisterByte_decode (f : Filter) (hf : Accepted f) :
    (f.filterType = si7210_filters_t.FIR → filterRegisterByte f &&& 1 = 0)
    ∧ (f.filterType = si7210_filters_t.IIR → filterRegisterByte f &&& 1 = 1)
    ∧ ((filterRegisterByte f >>> 1 : Nat) : Int) = f.burstsize
    ∧ filterRegisterByte f ≤ 25 := by
  obtain ⟨hfir, hiir⟩ := filterRegisterByte_accepted f hf
  obtain ⟨ht, h0, h12⟩ := hf
  obtain ⟨ft, b⟩ := f
  simp only at ht h0 h12 hfir hiir ⊢
  rcases ht with ht | ht <;> subst ht
  · rw [hfir rfl]
    interval_cases b <;> decide
  · rw [hiir rfl]
    interval_cases b <;> decide

/-- C25: for every accepted filter (type FIR or IIR, burst size `0 <= b <= 12`) the byte `v`
that `setFilter` writes to the filter register satisfies `v & 1 =` the type bit (`0` for FIR,
`1` for IIR), `v >> 1 = b` and `v <= 25`; hence two accepted filters that write the same
byte are the same filter; and a filter of type None, or one with a rejected burst size
`b > 12`, writes the byte `0`, which is also what the accepted filter `{FIR, 0}` writes. -/
theorem setFilter_decodable {τ : Type} (f g : Filter) (dev : si7210 σ) (dev' : si7210 τ)
    (hf : Accepted f) (hg : Accepted g) :
    (∃ (st : Int) (v : Nat),
      issued dev (setFilter f dev).2 = [Txn.write dev.devAddr8Bit [0xCD, v] false st]
      ∧ (f.filterType = si7210_filters_t.FIR → v &&& 1 = DF_FIR_MASK)
      ∧ (f.filterType = si7210_filters_t.IIR → v &&& 1 = DF_IIR_MASK)
      ∧ ((v >>> 1 : Nat) : Int) = f.burstsize
      ∧ v ≤ 25)
    ∧ (∀ (v : Nat) (st st' : Int),
        issued dev (setFilter f dev).2 = [Txn.write dev.devAddr8Bit [0xCD, v] false st] →
        issued dev' (setFilter g dev').2 = [Txn.write dev'.devAddr8Bit [0xCD, v] false st'] →
        f = g)
    ∧ (∀ h : Filter, (h.filterType = si7210_filters_t.NONE ∨ h.burstsize > 12) →
        ∃ st st0 : Int,
          issued dev (setFilter h dev).2 = [Txn.write dev.devAddr8Bit [0xCD, 0] false st]
          ∧ issued dev (setFilter { filterType := si7210_filters_t.FIR, burstsize := 0 } dev).2
            = [Txn.write dev.devAddr8Bit [0xCD, 0] false st0]) := by
  obtain ⟨stf, hif⟩ := setFilter_issued f dev
  obtain ⟨stg, hig⟩ := setFilter_issued g dev'
  obtain ⟨d1, d2, d3, d4⟩ := filterRegisterByte_decode f hf
  obtain ⟨e1, e2, e3, e4⟩ := filterRegisterByte_decode g hg
  refine ⟨⟨stf, filterRegisterByte f, hif, d1, d2, d3, d4⟩, ?_, ?_⟩
  · intro v st st' hv hv'
    rw [hif] at hv
    rw [hig] at hv'
    have hvf : filterRegisterByte f = v := by
      simp only [List.cons.injEq, Txn.write.injEq, and_true, true_and] at hv
      exact hv.1
    have hvg : filterRegisterByte g = v := by
      simp only [List.cons.injEq, Txn.write.injEq, and_true, true_and] at hv'
      exact hv'.1
    rw [hvf] at d1 d2 d3
    rw [hvg] at e1 e2 e3
    obtain ⟨tf, bf⟩ := f
    obtain ⟨tg, bg⟩ := g
    obtain ⟨htf, -, -⟩ := hf
    obtain ⟨htg, -, -⟩ := hg
    simp only at d1 d2 d3 e1 e2 e3 htf htg
    have hb : bf = bg := d3.symm.trans e3
    subst hb
    rcases htf with h | h <;> rcases htg with h' | h' <;> subst h <;> subst h'
    · rfl
    · have a := d1 rfl
      have b := e2 rfl
      rw [a] at b
      exact absurd b (by decide)
    · have a := d2 rfl
      have b := e1 rfl
      rw [a] at b
      exact absurd b (by decide)
    · rfl
  · intro h hh
    obtain ⟨sth, hih⟩ := setFilter_issued h dev
    obtain ⟨st0, hi0⟩ :=
      setFilter_issued { filterType := si7210_filters_t.FIR, burstsize := 0 } dev
    refine ⟨sth, st0, ?_, hi0⟩
    rw [hih]
    have hz : filterRegisterByte h = 0 := by
      unfold filterRegisterByte
      rcases hh with hn | hb
      · rw [hn]
      · cases h.filterType <;> simp only [hb, if_true]
    rw [hz]

/-- Witness for C25: the accepted filters `{IIR, 12}` and `{IIR, 12}` on a scripted bus;
the byte written is `25`, with low bit `1` and `25 >> 1 = 12`. -/
theorem setFilter_decodable_witness :
    (∃ (st : Int) (v : Nat),
      issued (scriptDev (fun _ => 0) (fun _ => none) si7210_range_t.RANGE_20mT
          si7210_magnet_t.NONE)
        (setFilter { filterType := si7210_filters_t.IIR, burstsize := 12 }
          (scriptDev (fun _ => 0) (fun _ => none) si7210_range_t.RANGE_20mT
            si7210_magnet_t.NONE)).2 = [Txn.write 0x62 [0xCD, v] false st]
      ∧ (si7210_filters_t.IIR = si7210_filters_t.FIR → v &&& 1 = DF_FIR_MASK)
      ∧ (si7210_filters_t.IIR = si7210_filters_t.IIR → v &&& 1 = DF_IIR_MASK)
      ∧ ((v >>> 1 : Nat) : Int) = 12
      ∧ v ≤ 25)
    ∧ (setFilter { filterType := si7210_filters_t.IIR, burstsize := 12 }
        (scriptDev (fun _ => 0) (fun _ => none) si7210_range_t.RANGE_20mT
          si7210_magnet_t.NONE)).2.i2c.log = [Txn.write 0x62 [0xCD, 25] false 0] :=
  ⟨(setFilter_decodable { filterType := si7210_filters_t.IIR, burstsize := 12 }
      { filterType := si7210_filters_t.IIR, burstsize := 12 }
      (scriptDev (fun _ => 0) (fun _ => none) si7210_range_t.RANGE_20mT si7210_magnet_t.NONE)
      (scriptDev (fun _ => 0) (fun _ => none) si7210_range_t.RANGE_20mT si7210_magnet_t.NONE)
      ⟨Or.inr rfl, by decide, by decide⟩ ⟨Or.inr rfl, by decide, by decide⟩).1,
    by decide⟩

/-! ## Bus address -/

theorem extends_refl (dev : si7210 σ) : Extends dev dev :=
  ⟨frame_refl dev, [], by simp, by simp⟩

theorem extends_trans {a b c : si7210 σ} (h1 : Extends a b) (h2 : Extends b c) :
    Extends a c := by
  obtain ⟨f1, l1, e1, a1⟩ := h1
  obtain ⟨f2, l2, e2, a2⟩ := h2
  refine ⟨frame_trans f1 f2, l1 ++ l2, by rw [e2, e1, List.append_assoc], ?_⟩
  intro t ht
  rcases List.mem_append.mp ht with h | h
  · exact a1 t h
  · rw [a2 t h]
    exact f1.2.1

theorem extends_writeRegister (reg data : Nat) (dev : si7210 σ) :
    Extends dev (writeRegister reg data dev).2 := by
  obtain ⟨st, -, -, hf, hlog⟩ := writeRegister_run reg data dev
  refine ⟨hf, _, hlog, ?_⟩
  intro t ht
  simp only [List.mem_singleton] at ht
  subst ht
  rfl

theorem extends_readRegister (reg buf : Nat) (dev : si7210 σ) :
    Extends dev (readRegister reg buf dev).2 := by
  obtain ⟨st1, st2, data, -, -, -, hf, hlog⟩ := readRegister_run reg buf dev
  refine ⟨hf, _, hlog, ?_⟩
  intro t ht
  simp only [List.mem_cons, List.mem_singleton, List.not_mem_nil, or_false] at ht
  rcases ht with h | h <;> subst h <;> rfl

theorem extends_wakeup (mem : Nat) (dev : si7210 σ) : Extends dev (wakeup mem dev).2 := by
  refine ⟨⟨rfl, rfl, rfl, rfl, rfl, rfl, rfl, rfl⟩, _, rfl, ?_⟩
  intro t ht
  simp only [List.mem_singleton] at ht
  subst ht
  rfl

theorem extends_rmw (reg buf : Nat) (f : Nat → Nat) (dev : si7210 σ) :
    Extends dev (rmw reg buf f dev).2 := by
  have e : (rmw reg buf f dev).2
      = (writeRegister reg (f (readRegister reg buf dev).1.2) (readRegister reg buf dev).2).2 := by
    simp only [rmw, bind_run, pure_run]
  rw [e]
  exact extends_trans (extends_readRegister _ _ _) (extends_writeRegister _ _ _)

theorem extends_setMode (m : si7210_mode_t) (temp0 : Nat) (dev : si7210 σ) :
    Extends dev (setMode m temp0 dev).2 := by
  cases hmode : dev.mode with
  | ONEBURST =>
      rw [setMode_oneburst m temp0 dev hmode]
      exact extends_refl dev
  | CONST_CONVERSION =>
      rw [setMode_const m temp0 dev hmode]
      simp only [bind_run, pure_run]
      exact extends_trans (extends_trans (extends_rmw _ _ _ _) (extends_rmw _ _ _ _))
        (extends_rmw _ _ _ _)

theorem cycleTxns_address (a src dst buf : Nat) (ans : CycleAnswers) :
    ∀ t ∈ cycleTxns a src dst buf ans, t.address = a := by
  intro t ht
  simp only [cycleTxns, List.mem_cons, List.mem_singleton, List.not_mem_nil, or_false] at ht
  rcases ht with h | h | h | h | h <;> subst h <;> rfl

theorem extends_setRange (r : si7210_range_t) (mag : si7210_magnet_t) (temp : Nat)
    (dev : si7210 σ) : Extends dev (setRange r mag temp dev).2 := by
  obtain ⟨a0, a1, a2, a3, a4, a5, -, -, hf, hlog⟩ := setRange_run r mag temp dev
  refine ⟨hf, _, hlog, ?_⟩
  intro t ht
  simp only [calibrationTxns, List.mem_append] at ht
  rcases ht with ((((h | h) | h) | h) | h) | h <;> exact cycleTxns_address _ _ _ _ _ t h

theorem extends_setFilter (f : Filter) (dev : si7210 σ) :
    Extends dev (setFilter f dev).2 := by
  cases ht : f.filterType
  · by_cases hb : f.burstsize > 12
    · rw [setFilter_fir_reject f ht hb dev]
      exact extends_writeRegister _ _ _
    · rw [setFilter_fir_accept f ht hb dev]
      exact extends_writeRegister _ _ _
  · by_cases hb : f.burstsize > 12
    · rw [setFilter_iir_reject f ht hb dev]
      exact extends_writeRegister _ _ _
    · rw [setFilter_iir_accept f ht hb dev]
      exact extends_writeRegister _ _ _
  · rw [setFilter_none f ht dev]
    exact extends_writeRegister _ _ _

theorem init_eq (tMode tRange : Nat) (dev : si7210 σ) :
    (init tMode tRange dev).2
      = (setFilter (setRange (setMode dev.mode tMode dev).2.range
            (setMode dev.mode tMode dev).2.magnet tRange (setMode dev.mode tMode dev).2).2.filter
          (setRange (setMode dev.mode tMode dev).2.range
            (setMode dev.mode tMode dev).2.magnet tRange (setMode dev.mode tMode dev).2).2).2 :=
  rfl

theorem extends_init (tMode tRange : Nat) (dev : si7210 σ) :
    Extends dev (init tMode tRange dev).2 := by
  rw [init_eq]
  exact extends_trans (extends_trans (extends_setMode _ _ _) (extends_setRange _ _ _ _))
    (extends_setFilter _ _)

theorem issued_address {dev dev' : si7210 σ} (h : Extends dev dev') :
    ∀ t ∈ issued dev dev', t.address = dev.devAddr8Bit := by
  obtain ⟨-, l, hl, ha⟩ := h
  rw [issued_of_log hl]
  exact ha

/-- C26: the device `dev` that the constructor builds for the device address `a` (a byte)
stores the 8-bit address `(2 * a) mod 256`; every transaction issued during construction
goes to that address, and so does every transaction that `readRegister`, `writeRegister`
and `wakeup` (the three places of the driver that call the bus) issue on a device with that
stored address; for a 7-bit address `a < 128` the 8-bit address is `a << 1 = 2 * a`, its
lowest bit is `0`, and `a` is recovered by shifting it right by one. -/
theorem constructor_address (i2cBus : I2C σ) (a : Nat) (r : si7210_range_t)
    (mag : si7210_magnet_t) (m : si7210_mode_t) (f : Filter) (tMode tRange : Nat)
    (dev : si7210 σ) (hdev : dev = si7210.new i2cBus a r mag m f tMode tRange)
    (ha : a < 256) :
    dev.devAddr8Bit = (2 * a) % 256
    ∧ dev.devAddr7Bit = a
    ∧ (∀ t ∈ dev.i2c.log.drop i2cBus.log.length, t.address = (2 * a) % 256)
    ∧ (∀ d : si7210 σ, d.devAddr8Bit = dev.devAddr8Bit →
        (∀ reg buf, ∀ t ∈ issued d (readRegister reg buf d).2, t.address = (2 * a) % 256)
        ∧ (∀ reg data, ∀ t ∈ issued d (writeRegister reg data d).2, t.address = (2 * a) % 256)
        ∧ (∀ mem, ∀ t ∈ issued d (wakeup mem d).2, t.address = (2 * a) % 256))
    ∧ (a < 128 →
        dev.devAddr8Bit = 2 * a ∧ dev.devAddr8Bit = a <<< 1 ∧ dev.devAddr8Bit % 2 = 0
        ∧ dev.devAddr8Bit >>> 1 = a) := by
  have hext := extends_init tMode tRange
    ({ i2c := i2cBus, devAddr7Bit := a % 256, devAddr8Bit := ((a % 256) <<< 1) % 256,
       range := r, magnet := mag, mode := m, filter := f } : si7210 σ)
  have hnew : si7210.new i2cBus a r mag m f tMode tRange
      = (init tMode tRange
          ({ i2c := i2cBus, devAddr7Bit := a % 256, devAddr8Bit := ((a % 256) <<< 1) % 256,
             range := r, magnet := mag, mode := m, filter := f } : si7210 σ)).2 := rfl
  rw [← hnew, ← hdev] at hext
  obtain ⟨hf, l, hl, hal⟩ := hext
  have h8 : dev.devAddr8Bit = (2 * a) % 256 := by
    rw [hf.2.1]
    simp only [Nat.mod_eq_of_lt ha, Nat.shiftLeft_eq]
    omega
  have h7 : dev.devAddr7Bit = a := by
    rw [hf.1]
    exact Nat.mod_eq_of_lt ha
  refine ⟨h8, h7, ?_, ?_, ?_⟩
  · intro t ht
    simp only at hl
    rw [hl] at ht
    simp only [List.drop_left] at ht
    rw [hal t ht]
    simp only [Nat.mod_eq_of_lt ha, Nat.shiftLeft_eq]
    omega
  · intro d hd
    rw [← h8, ← hd]
    exact ⟨fun reg buf => issued_address (extends_readRegister reg buf d),
      fun reg data => issued_address (extends_writeRegister reg data d),
      fun mem => issued_address (extends_wakeup mem d)⟩
  · intro h128
    rw [h8]
    simp only [Nat.shiftLeft_eq, Nat.shiftRight_eq_div_pow]
    omega

/-- Witness for C26: the device address `0x31` of `main.cpp` gives the 8-bit address
`0x62`. -/
theorem constructor_address_witness :
    (si7210.new (scriptBus (fun _ => 0) (fun _ => some 0)) 0x31 si7210_range_t.RANGE_20mT
      si7210_magnet_t.NEODYMIUM si7210_mode_t.CONST_CONVERSION
      { filterType := si7210_filters_t.FIR, burstsize := 12 } 0 0).devAddr8Bit = 0x62 :=
  (constructor_address (scriptBus (fun _ => 0) (fun _ => some 0)) 0x31
    si7210_range_t.RANGE_20mT si7210_magnet_t.NEODYMIUM si7210_mode_t.CONST_CONVERSION
    { filterType := si7210_filters_t.FIR, burstsize := 12 } 0 0 _ rfl (by decide)).1

end Si7210
